import Mathlib

/-!
# Verification of the iris render-queue builder

A shallow embedding of `RenderQueueBuilder` (and the free function
`encode_light_pass_commands`) from `src/graphics/render_queue_builder.cpp`.
External collaborators (render-target provider, material factory) are
modelled as fresh-id allocators that record their invocations in the
builder state; opaque GPU handles become natural-number identifiers.
Caller-owned scenes live in a store indexed by `SceneRef`, so that the
in-place mutations the C++ code performs (sky-box entity creation, the
`pass_data_` arena) are explicit state updates.
-/

namespace Iris

/-- Camera type, from `core/camera_type.h` usage in the builder
(`CameraType::ORTHOGRAPHIC` for synthetic full-screen passes). -/
inductive CameraType where
  | PERSPECTIVE
  | ORTHOGRAPHIC
  deriving DecidableEq, Repr

/-- Camera value: type plus dimensions, as constructed by
`Camera{CameraType::ORTHOGRAPHIC, width_, height_}` in `add_pass`. -/
structure Camera where
  ctype : CameraType
  cwidth : Nat
  cheight : Nat
  deriving DecidableEq, Repr

/-- A `Camera *`: either a borrowed caller/light camera (held by value, the
builder never mutates those), or a pointer into the builder's `pass_data_`
arena, whose slots the builder does mutate. -/
inductive CameraPtr where
  | value (c : Camera)
  | arena (i : Nat)
  deriving DecidableEq, Repr

/-- A `Scene *`: a caller-owned scene (index into the caller's scene store)
or a builder-owned arena scene inside `pass_data_`. -/
inductive SceneRef where
  | caller (i : Nat)
  | arena (i : Nat)
  deriving DecidableEq, Repr

/-- One `(render_graph, render_entity)` pair of `Scene::entities()`, with the
entity's `receive_shadow()` flag.  Graphs and entities are opaque handles. -/
structure SEntity where
  graphId : Nat
  entId : Nat
  receiveShadow : Bool
  deriving DecidableEq, Repr

/-- A directional light: identity, `casts_shadows()` and `shadow_camera()`. -/
structure DirectionalLight where
  lid : Nat
  castsShadows : Bool
  shadowCamera : Camera
  deriving DecidableEq, Repr

/-- `Scene::lighting_rig()`: one ambient light (always present), the point
lights and the directional lights, in their container order. -/
structure LightingRig where
  ambientLight : Nat
  pointLights : List Nat
  directionalLights : List DirectionalLight
  deriving DecidableEq, Repr

/-- A scene: its entity collection and its lighting rig. -/
structure Scene where
  entities : List SEntity
  rig : LightingRig
  deriving DecidableEq, Repr

/-- An RGBA colour; the C++ `float` components of the literals the builder
writes into render-graph nodes are carried as rationals. -/
structure Colour where
  r : Rat
  g : Rat
  b : Rat
  a : Rat
  deriving DecidableEq, Repr

inductive ArithmeticOperator where
  | DOT
  | ADD
  deriving DecidableEq, Repr

inductive ConditionalOperator where
  | GREATER
  deriving DecidableEq, Repr

/-- The render-graph node trees the builder constructs.  `texture t` is
`TextureNode(target->colour_texture())` for the render target with id `t`;
`colourInput n` is the default render node after
`render_node()->set_colour_input(n)`; the remaining constructors mirror the
`set_render_node<...>` calls.  Caller-built graphs stay opaque (only their
ids appear, in `SEntity.graphId`). -/
inductive RGNode where
  | texture (targetId : Nat)
  | valueColour (c : Colour)
  | valueFloat (v : Rat)
  | arithmetic (a b : RGNode) (op : ArithmeticOperator)
  | conditional (a b c d : RGNode) (op : ConditionalOperator)
  | blur (a : RGNode)
  | colourAdjustNode (a : RGNode) (params : Nat)
  | antiAliasingNode (a : RGNode)
  | ambientOcclusionNode (col norm pos : RGNode) (params : Nat)
  | skyBoxNode (cubeMap : Nat)
  | colourInput (a : RGNode)
  deriving DecidableEq, Repr

/-- Bloom configuration (`threshold`, `iterations`). -/
structure Bloom where
  threshold : Rat
  iterations : Nat
  deriving DecidableEq, Repr

/-- `PostProcessingDescription`: every effect independently optional;
colour-adjust and ambient-occlusion parameter blocks are opaque handles. -/
structure PostProcessingDescription where
  bloom : Option Bloom := none
  colourAdjust : Option Nat := none
  antiAliasing : Bool := false
  ambientOcclusion : Option Nat := none
  deriving DecidableEq, Repr

/-- `RenderPass`.  The struct's header is not part of the sources under
verification; field defaults (used by the aggregate initialisers
`{.scene = &scene, .camera = &camera}` in `add_pass`) follow the spec's
pass-descriptor description: no targets, not depth-only, empty
post-processing, no sky box.  Every field the claims touch is set
explicitly by the modelled code before being read. -/
structure RenderPass where
  scene : SceneRef
  camera : CameraPtr
  colourTarget : Option Nat := none
  normalTarget : Option Nat := none
  positionTarget : Option Nat := none
  depthOnly : Bool := false
  clearColour : Bool := true
  clearDepth : Bool := true
  postProcessingDescription : PostProcessingDescription := {}
  skyBox : Option Nat := none
  deriving DecidableEq, Repr

inductive LightType where
  | AMBIENT
  | POINT
  | DIRECTIONAL
  deriving DecidableEq, Repr

inductive RenderCommandType where
  | PASS_START
  | DRAW
  | PASS_END
  | PRESENT
  deriving DecidableEq, Repr

/-- `RenderCommand`: the single mutable command object the builder threads
through encoding ("pre-loaded" state).  The pass reference is the index of
the pass in the final pass list; material/entity/light/shadow-map are
opaque handles, `none` modelling `nullptr`. -/
structure RenderCommand where
  ctype : RenderCommandType := .PASS_START
  renderPass : Option Nat := none
  material : Option Nat := none
  renderEntity : Option Nat := none
  light : Option Nat := none
  shadowMap : Option Nat := none
  deriving DecidableEq, Repr

/-- Record of one `create_render_target(width, height)` call. -/
structure TargetAlloc where
  tid : Nat
  twidth : Nat
  theight : Nat
  deriving DecidableEq, Repr

/-- Record of one `create_hybrid_render_target(colour_source, depth_source)`
call. -/
structure HybridAlloc where
  tid : Nat
  colourSource : Option Nat
  depthSource : Option Nat
  deriving DecidableEq, Repr

/-- Record of one `create_material_callback_` invocation. -/
structure MaterialCall where
  mid : Nat
  graphId : Nat
  entityId : Nat
  colourTarget : Option Nat
  lightType : LightType
  needsNormal : Bool
  needsPosition : Bool
  deriving DecidableEq, Repr

/-- One `pass_data_` arena slot: the builder-owned scene and camera backing
a synthetic pass. -/
structure PassData where
  pscene : Scene
  pcamera : Camera
  deriving DecidableEq, Repr

/-- The builder plus its external collaborators: configuration
(`width_`, `height_`), a fresh-id source standing for the opaque handles
the callbacks return, the traces of the collaborator calls, the
`pass_data_` arena, the store of builder-created render graphs, and the
caller's scene store (mutable, since the builder mutates scenes through
borrowed pointers). -/
structure BuilderState where
  bwidth : Nat
  bheight : Nat
  nextId : Nat
  targets : List TargetAlloc := []
  hybrids : List HybridAlloc := []
  materialCalls : List MaterialCall := []
  graphs : List (Nat × RGNode) := []
  passData : List PassData := []
  scenes : List Scene
  deriving DecidableEq, Repr

/-- Allocate a fresh opaque id. -/
def freshId (s : BuilderState) : Nat × BuilderState :=
  (s.nextId, { s with nextId := s.nextId + 1 })

/-- `create_render_target_callback_(w, h)`. -/
def createRenderTarget (w h : Nat) (s : BuilderState) : Nat × BuilderState :=
  (s.nextId, { s with nextId := s.nextId + 1, targets := s.targets ++ [⟨s.nextId, w, h⟩] })

/-- `create_hybrid_render_target_callback_(colour_source, depth_source)`. -/
def createHybridRenderTarget (c d : Option Nat) (s : BuilderState) : Nat × BuilderState :=
  (s.nextId, { s with nextId := s.nextId + 1, hybrids := s.hybrids ++ [⟨s.nextId, c, d⟩] })

/-- `create_material_callback_(render_graph, entity, target, light_type,
needs_normal, needs_position)`. -/
def createMaterial (g e : Nat) (ct : Option Nat) (lt : LightType) (nn np : Bool)
    (s : BuilderState) : Nat × BuilderState :=
  (s.nextId,
   { s with
     nextId := s.nextId + 1
     materialCalls := s.materialCalls ++ [⟨s.nextId, g, e, ct, lt, nn, np⟩] })

/-- Dereferencing an invalid scene pointer is undefined behaviour in the
C++; the model totalises it with an empty scene. -/
def emptyScene : Scene := ⟨[], ⟨0, [], []⟩⟩

/-- Dereference a `Scene *`. -/
def lookupScene (s : BuilderState) : SceneRef → Scene
  | .caller i => ((s.scenes.get? i).getD emptyScene)
  | .arena i => (((s.passData.get? i).map PassData.pscene).getD emptyScene)

/-- Dereference a `Camera *`. -/
def derefCamera (s : BuilderState) : CameraPtr → Camera
  | .value c => c
  | .arena i => (((s.passData.get? i).map PassData.pcamera).getD ⟨.ORTHOGRAPHIC, 0, 0⟩)

/-- Mutate the scene a `Scene *` points at. -/
def updateScene (s : BuilderState) (r : SceneRef) (f : Scene → Scene) : BuilderState :=
  match r with
  | .caller i => { s with scenes := s.scenes.set i (f ((s.scenes.get? i).getD emptyScene)) }
  | .arena i =>
      match s.passData.get? i with
      | none => s
      | some pd => { s with passData := s.passData.set i { pd with pscene := f pd.pscene } }

/-- The `std::map<DirectionalLight *, RenderTarget *>` shadow-map table,
keyed by light identity. -/
abbrev ShadowMaps := List (Nat × Nat)

/-- `shadow_maps[light] = rt`: insert-or-overwrite. -/
def mapInsert (k v : Nat) : ShadowMaps → ShadowMaps
  | [] => [(k, v)]
  | (k', v') :: rest => if k' = k then (k, v) :: rest else (k', v') :: mapInsert k v rest

/-- Association lookup in the table. -/
def mapLookup (k : Nat) : ShadowMaps → Option Nat
  | [] => none
  | (k', v') :: rest => if k' = k then some v' else mapLookup k rest

/-- `shadow_maps.count(light) == 0 ? nullptr : shadow_maps.at(light)` -/
def shadowLookup (maps : ShadowMaps) (k : Nat) : Option Nat :=
  mapLookup k maps

/-!
## Command encoding

`encode_light_pass_commands` and the per-pass body of the encoding loop in
`RenderQueueBuilder::build`.  The single `RenderCommand` object is threaded
explicitly; pushing onto the queue copies its current value, exactly as
`render_queue.push_back(cmd)` does.
-/

/-- The `LightType::POINT` arm: one DRAW per point light, mutating the
shared command object each time. -/
def encodePointLights (cmd : RenderCommand) : List Nat → List RenderCommand × RenderCommand
  | [] => ([], cmd)
  | l :: ls =>
      let cmd := { cmd with ctype := .DRAW, light := some l }
      let (q, cmd') := encodePointLights cmd ls
      (cmd :: q, cmd')

/-- The `LightType::DIRECTIONAL` arm: one DRAW per directional light; the
shadow-map field is written only when the entity receives shadows (and is
otherwise left holding whatever it had). -/
def encodeDirLights (ent : SEntity) (maps : ShadowMaps) (cmd : RenderCommand) :
    List DirectionalLight → List RenderCommand × RenderCommand
  | [] => ([], cmd)
  | l :: ls =>
      let cmd := { cmd with ctype := .DRAW, light := some l.lid }
      let cmd := if ent.receiveShadow then { cmd with shadowMap := shadowLookup maps l.lid } else cmd
      let (q, cmd') := encodeDirLights ent maps cmd ls
      (cmd :: q, cmd')

/-- The entity loop of `encode_light_pass_commands`: per entity, create a
material for this pass's colour target and light type, load it and the
entity into the command, then emit the light-type-specific draws. -/
def encodeEntities (sc : Scene) (lt : LightType) (hn hp : Bool) (passColour : Option Nat)
    (maps : ShadowMaps) (cmd : RenderCommand) (s : BuilderState) :
    List SEntity → List RenderCommand × RenderCommand × BuilderState
  | [] => ([], cmd, s)
  | ent :: rest =>
      let (m, s) := createMaterial ent.graphId ent.entId passColour lt
        (hn && decide (lt = LightType.AMBIENT)) (hp && decide (lt = LightType.AMBIENT)) s
      let cmd := { cmd with material := some m, renderEntity := some ent.entId }
      let (q1, cmd) :=
        match lt with
        | .AMBIENT =>
            let c := { cmd with ctype := .DRAW, light := some sc.rig.ambientLight }
            ([c], c)
        | .POINT => encodePointLights cmd sc.rig.pointLights
        | .DIRECTIONAL => encodeDirLights ent maps cmd sc.rig.directionalLights
      let (q2, cmd, s) := encodeEntities sc lt hn hp passColour maps cmd s rest
      (q1 ++ q2, cmd, s)

/-- `encode_light_pass_commands(scene, light_type, ...)`. -/
def encodeLightPassCommands (sc : Scene) (lt : LightType) (hn hp : Bool)
    (passColour : Option Nat) (maps : ShadowMaps) (cmd : RenderCommand) (s : BuilderState) :
    List RenderCommand × RenderCommand × BuilderState :=
  encodeEntities sc lt hn hp passColour maps cmd s sc.entities

/-- The ambient encoding of one pass: skipped when the pass requests
ambient occlusion (the SSAO pass subsumes the ambient pass). -/
def ambientBlock (p : RenderPass) (maps : ShadowMaps) (cmd : RenderCommand) (s : BuilderState) :
    List RenderCommand × RenderCommand × BuilderState :=
  if p.postProcessingDescription.ambientOcclusion.isSome then ([], cmd, s)
  else
    encodeLightPassCommands (lookupScene s p.scene) .AMBIENT
      p.normalTarget.isSome p.positionTarget.isSome p.colourTarget maps cmd s

/-- Point lights are encoded only when the scene has some. -/
def pointBlock (p : RenderPass) (maps : ShadowMaps) (cmd : RenderCommand) (s : BuilderState) :
    List RenderCommand × RenderCommand × BuilderState :=
  if (lookupScene s p.scene).rig.pointLights.isEmpty then ([], cmd, s)
  else
    encodeLightPassCommands (lookupScene s p.scene) .POINT
      p.normalTarget.isSome p.positionTarget.isSome p.colourTarget maps cmd s

/-- Directional lights are encoded only when the scene has some. -/
def dirBlock (p : RenderPass) (maps : ShadowMaps) (cmd : RenderCommand) (s : BuilderState) :
    List RenderCommand × RenderCommand × BuilderState :=
  if (lookupScene s p.scene).rig.directionalLights.isEmpty then ([], cmd, s)
  else
    encodeLightPassCommands (lookupScene s p.scene) .DIRECTIONAL
      p.normalTarget.isSome p.positionTarget.isSome p.colourTarget maps cmd s

/-- The sky-box encoding: create a sky-box render graph and a unit-cube
entity in the pass's scene (mutating the caller's scene through the
borrowed pointer), build its material under the ambient light type, and
emit one DRAW with the scene's ambient light. -/
def skyBoxBlock (p : RenderPass) (cmd : RenderCommand) (s : BuilderState) :
    List RenderCommand × RenderCommand × BuilderState :=
  match p.skyBox with
  | none => ([], cmd, s)
  | some cubeMap =>
      let sc := lookupScene s p.scene
      let (g, s) := freshId s
      let s := { s with graphs := s.graphs ++ [(g, .skyBoxNode cubeMap)] }
      let (e, s) := freshId s
      let s := updateScene s p.scene
        (fun sc => { sc with entities := sc.entities ++ [⟨g, e, true⟩] })
      let (m, s) := createMaterial g e p.colourTarget .AMBIENT false false s
      let cmd := { cmd with
        material := some m
        renderEntity := some e
        ctype := .DRAW
        light := some sc.rig.ambientLight }
      ([cmd], cmd, s)

/-- The `if (!pass.depth_only)` body: point lights, then directional
lights, then the sky box. -/
def lightsBlock (p : RenderPass) (maps : ShadowMaps) (cmd : RenderCommand) (s : BuilderState) :
    List RenderCommand × RenderCommand × BuilderState :=
  if p.depthOnly then ([], cmd, s)
  else
    let (q1, cmd, s) := pointBlock p maps cmd s
    let (q2, cmd, s) := dirBlock p maps cmd s
    let (q3, cmd, s) := skyBoxBlock p cmd s
    (q1 ++ q2 ++ q3, cmd, s)

/-- One iteration of the encoding loop of `build`: PASS_START, the ambient
block, the non-depth-only blocks, PASS_END. `idx` is the pass's position in
the final pass list (the pass reference carried by the commands). -/
def encodeOnePass (idx : Nat) (p : RenderPass) (maps : ShadowMaps) (cmd : RenderCommand)
    (s : BuilderState) : List RenderCommand × RenderCommand × BuilderState :=
  let startCmd := { cmd with renderPass := some idx, ctype := RenderCommandType.PASS_START }
  let (qA, cmd, s) := ambientBlock p maps startCmd s
  let (qL, cmd, s) := lightsBlock p maps cmd s
  let endCmd := { cmd with ctype := RenderCommandType.PASS_END }
  (startCmd :: (qA ++ qL) ++ [endCmd], endCmd, s)

/-- The full encoding loop over the final pass list. -/
def encodePasses (maps : ShadowMaps) (cmd : RenderCommand) (s : BuilderState) (idx : Nat) :
    List RenderPass → List RenderCommand × RenderCommand × BuilderState
  | [] => ([], cmd, s)
  | p :: ps =>
      let (q, cmd, s) := encodeOnePass idx p maps cmd s
      let (q', cmd, s) := encodePasses maps cmd s (idx + 1) ps
      (q ++ q', cmd, s)

/-!
## `add_pass` and the post-processing expander
-/

/-- `render_passes.back().colour_target = t` on a pass deque. -/
def setLastColourTarget (t : Option Nat) : List RenderPass → List RenderPass
  | [] => []
  | [p] => [{ p with colourTarget := t }]
  | p :: q :: rest => p :: setLastColourTarget t (q :: rest)

/-- `pass_data_.back().camera = c`. -/
def setLastArenaCamera (c : Camera) : List PassData → List PassData
  | [] => []
  | [pd] => [{ pd with pcamera := c }]
  | pd :: q :: rest => pd :: setLastArenaCamera c (q :: rest)

/-- The pass descriptor `add_pass` pushes:
`{.scene = &scene, .camera = &camera}` pointing into the `pass_data_`
arena slot `i`, remaining fields defaulted. -/
def stagePass (i : Nat) : RenderPass :=
  { scene := .arena i, camera := .arena i }

/-- `RenderQueueBuilder::add_pass`: push a `pass_data_` slot (a fresh scene
— whose construction creates its ambient light — and an orthographic
full-screen camera), allocate a full-screen target, build the stage's
render graph against that target, create the full-screen sprite entity,
redirect the previous pass's colour target to the new target and append
the new pass.  Returns the new target. -/
def addPass (s : BuilderState) (passes : List RenderPass) (mkGraph : Nat → RGNode) :
    Nat × List RenderPass × BuilderState :=
  let arenaIdx := s.passData.length
  let cam : Camera := ⟨.ORTHOGRAPHIC, s.bwidth, s.bheight⟩
  let (ambientId, s) := freshId s
  let (target, s) := createRenderTarget s.bwidth s.bheight s
  let (graphId, s) := freshId s
  let s := { s with graphs := s.graphs ++ [(graphId, mkGraph target)] }
  let (entityId, s) := freshId s
  let arenaScene : Scene := ⟨[⟨graphId, entityId, true⟩], ⟨ambientId, [], []⟩⟩
  let s := { s with passData := s.passData ++ [⟨arenaScene, cam⟩] }
  let passes := setLastColourTarget (some target) passes
  (target, passes ++ [stagePass arenaIdx], s)

/-- The perceptual luminance weights of the bloom threshold pass,
`Colour{0.2126f, 0.7152f, 0.0722f, 0.0f}`. -/
def bloomWeights : Colour := ⟨2126/10000, 7152/10000, 722/10000, 0⟩

/-- The below-threshold colour, `Colour{0.0f, 0.0f, 0.0f, 1.0f}`. -/
def bloomBlack : Colour := ⟨0, 0, 0, 1⟩

/-- The bloom blur loop: `iterations` single-stage blur passes. -/
def bloomBlurLoop (passes : List RenderPass) (s : BuilderState) :
    Nat → List RenderPass × BuilderState
  | 0 => (passes, s)
  | n + 1 =>
      let (_, passes, s) := addPass s passes (fun t => .colourInput (.blur (.texture t)))
      bloomBlurLoop passes s n

/-- The bloom branch of `add_post_processing_passes`: pass-through stage,
threshold-extraction stage, `iterations` blur stages, additive-composite
stage combining the pass-through input with the final blur output. -/
def expandBloom (b : Bloom) (passes : List RenderPass) (s : BuilderState) :
    List RenderPass × BuilderState :=
  let (nullTarget, passes, s) := addPass s passes (fun t => .colourInput (.texture t))
  let (_, passes, s) := addPass s passes (fun t =>
    .colourInput (.conditional
      (.arithmetic (.texture t) (.valueColour bloomWeights) .DOT)
      (.valueFloat b.threshold)
      (.texture t)
      (.valueColour bloomBlack)
      .GREATER))
  let (passes, s) := bloomBlurLoop passes s b.iterations
  let (_, passes, s) := addPass s passes (fun t =>
    .colourInput (.arithmetic (.texture nullTarget) (.texture t) .ADD))
  (passes, s)

/-- The body of the `add_post_processing_passes` loop for one input pass:
emplace the pass, capture its intended colour target, expand bloom,
colour-adjust and anti-aliasing in that order, then rewrite the last
pass's colour target back to the captured one. -/
def expandOnePass (p : RenderPass) (acc : List RenderPass) (s : BuilderState) :
    List RenderPass × BuilderState :=
  let acc := acc ++ [p]
  let inputTarget := p.colourTarget
  let d := p.postProcessingDescription
  let (acc, s) :=
    match d.bloom with
    | some b => expandBloom b acc s
    | none => (acc, s)
  let (acc, s) :=
    match d.colourAdjust with
    | some ca =>
        let (_, acc, s) := addPass s acc (fun t => .colourAdjustNode (.texture t) ca)
        (acc, s)
    | none => (acc, s)
  let (acc, s) :=
    if d.antiAliasing then
      let (_, acc, s) := addPass s acc (fun t => .antiAliasingNode (.texture t))
      (acc, s)
    else (acc, s)
  (setLastColourTarget inputTarget acc, s)

/-- `RenderQueueBuilder::add_post_processing_passes`. -/
def addPostProcessingPasses (acc : List RenderPass) (s : BuilderState) :
    List RenderPass → List RenderPass × BuilderState
  | [] => (acc, s)
  | p :: ps =>
      let (acc, s) := expandOnePass p acc s
      addPostProcessingPasses acc s ps

/-!
## The shadow/AO pre-pass injector
-/

/-- The synthetic shadow pass for one shadow-casting directional light
(`build`, first loop): a clone of the input pass with post-processing
stripped, the camera pointed at the light's shadow camera, the colour
target replaced by the given shadow-map target, normal/position targets
cleared, depth-only set, and colour+depth clears forced. -/
def mkShadowPass (p : RenderPass) (l : DirectionalLight) (rt : Nat) : RenderPass :=
  { p with
    postProcessingDescription := {}
    camera := .value l.shadowCamera
    colourTarget := some rt
    normalTarget := none
    positionTarget := none
    depthOnly := true
    clearColour := true
    clearDepth := true }

/-- The shadow loop of the injector: per shadow-casting directional light,
allocate a 1024×1024 target, append the synthetic shadow pass and record
the light→target association. -/
def injectShadows (p : RenderPass) (pre : List RenderPass) (maps : ShadowMaps)
    (s : BuilderState) : List DirectionalLight → List RenderPass × ShadowMaps × BuilderState
  | [] => (pre, maps, s)
  | l :: ls =>
      if l.castsShadows then
        let (rt, s) := createRenderTarget 1024 1024 s
        injectShadows p (pre ++ [mkShadowPass p l rt]) (mapInsert l.lid rt maps) s ls
      else
        injectShadows p pre maps s ls

/-- The AO data pass as synthesized (`build`, SSAO branch): a clone of the
input pass with post-processing stripped, no colour target, fresh
full-screen normal and position targets, depth-only set and colour clear
forced. -/
def mkAoDataPass (p : RenderPass) (n1 n2 : Nat) : RenderPass :=
  { p with
    postProcessingDescription := {}
    colourTarget := none
    normalTarget := some n1
    positionTarget := some n2
    depthOnly := true
    clearColour := true }

/-- The SSAO branch of the injector for one input pass: append the AO data
pass, add the SSAO compute pass via `add_pass`, overwrite the arena camera
with the data pass's (perspective) camera, point the compute pass at the
input pass's colour target, and replace the input pass's colour target with
a hybrid of that target and the AO stage target, disabling its clears. -/
def injectAO (p : RenderPass) (pre : List RenderPass) (s : BuilderState) :
    RenderPass × List RenderPass × BuilderState :=
  match p.postProcessingDescription.ambientOcclusion with
  | none => (p, pre, s)
  | some ssao =>
      let (n1, s) := createRenderTarget s.bwidth s.bheight s
      let (n2, s) := createRenderTarget s.bwidth s.bheight s
      let dataPass := mkAoDataPass p n1 n2
      let pre := pre ++ [dataPass]
      let prevCamera := derefCamera s dataPass.camera
      let (aoTarget, pre, s) := addPass s pre (fun t =>
        .ambientOcclusionNode (.texture t) (.texture n1) (.texture n2) ssao)
      let s := { s with passData := setLastArenaCamera prevCamera s.passData }
      let pre := setLastColourTarget p.colourTarget pre
      let (hybrid, s) := createHybridRenderTarget p.colourTarget (some aoTarget) s
      let p := { p with colourTarget := some hybrid, clearColour := false, clearDepth := false }
      (p, pre, s)

/-- The injector's work for one input pass: shadow passes for its
shadow-casting directional lights, then the SSAO passes. -/
def injectPass (p : RenderPass) (pre : List RenderPass) (maps : ShadowMaps)
    (s : BuilderState) : RenderPass × List RenderPass × ShadowMaps × BuilderState :=
  let (pre, maps, s) := injectShadows p pre maps s (lookupScene s p.scene).rig.directionalLights
  let (p, pre, s) := injectAO p pre s
  (p, pre, maps, s)

/-- The injector's loop over all input passes, returning the (possibly
mutated) input passes, the pre-process pass list and the shadow table. -/
def injectAll (pre : List RenderPass) (maps : ShadowMaps) (s : BuilderState) :
    List RenderPass → List RenderPass × List RenderPass × ShadowMaps × BuilderState
  | [] => ([], pre, maps, s)
  | p :: ps =>
      let (p, pre, maps, s) := injectPass p pre maps s
      let (ps', pre, maps, s) := injectAll pre maps s ps
      (p :: ps', pre, maps, s)

/-!
## `RenderQueueBuilder::build`

`build` copies the caller's deque, clears it, injects the pre-process
passes, prepends them, expands post-processing into the caller's deque and
encodes.  The returned triple is (command queue, final contents of the
caller's pass deque, final state — whose `scenes` field is the final
contents of the caller's scenes).
-/
def build (renderPasses : List RenderPass) (s : BuilderState) :
    List RenderCommand × List RenderPass × BuilderState :=
  let (initialPasses, pre, maps, s) := injectAll [] [] s renderPasses
  let (finalPasses, s) := addPostProcessingPasses [] s (pre ++ initialPasses)
  let (queue, cmd, s) := encodePasses maps {} s 0 finalPasses
  (queue ++ [{ cmd with ctype := .PRESENT }], finalPasses, s)

/-- A builder freshly constructed with dimensions `w × h`, over caller
scenes `scenes`; `n0` is the first opaque id the collaborators hand out
(caller-chosen ids for scenes' graphs/entities/lights live below it). -/
def initState (w h n0 : Nat) (scenes : List Scene) : BuilderState :=
  { bwidth := w, bheight := h, nextId := n0, scenes := scenes }

/-- One `build()` invocation on a fresh builder. -/
def buildRun (w h n0 : Nat) (scenes : List Scene) (passes : List RenderPass) :
    List RenderCommand × List RenderPass × BuilderState :=
  build passes (initState w h n0 scenes)

/-!
## Closed forms for the encoder
-/

theorem encodePointLights_queue (cmd : RenderCommand) (ls : List Nat) :
    (encodePointLights cmd ls).1
      = ls.map (fun l => { cmd with ctype := .DRAW, light := some l }) := by
  induction ls generalizing cmd with
  | nil => rfl
  | cons l ls ih => simp [encodePointLights, ih]

theorem encodePointLights_snd (cmd : RenderCommand) (ls : List Nat) :
    (encodePointLights cmd ls).2.renderPass = cmd.renderPass ∧
    (encodePointLights cmd ls).2.material = cmd.material ∧
    (encodePointLights cmd ls).2.renderEntity = cmd.renderEntity ∧
    (encodePointLights cmd ls).2.shadowMap = cmd.shadowMap := by
  induction ls generalizing cmd with
  | nil => exact ⟨rfl, rfl, rfl, rfl⟩
  | cons l ls ih => simpa [encodePointLights] using ih _

theorem encodeDirLights_queue (ent : SEntity) (maps : ShadowMaps) (cmd : RenderCommand)
    (ls : List DirectionalLight) :
    (encodeDirLights ent maps cmd ls).1
      = ls.map (fun l =>
          if ent.receiveShadow then
            { cmd with ctype := .DRAW, light := some l.lid, shadowMap := shadowLookup maps l.lid }
          else
            { cmd with ctype := .DRAW, light := some l.lid }) := by
  induction ls generalizing cmd with
  | nil => rfl
  | cons l ls ih =>
      cases h : ent.receiveShadow <;> simp [encodeDirLights, h, ih]

theorem encodeDirLights_snd (ent : SEntity) (maps : ShadowMaps) (cmd : RenderCommand)
    (ls : List DirectionalLight) :
    (encodeDirLights ent maps cmd ls).2.renderPass = cmd.renderPass ∧
    (encodeDirLights ent maps cmd ls).2.material = cmd.material ∧
    (encodeDirLights ent maps cmd ls).2.renderEntity = cmd.renderEntity := by
  induction ls generalizing cmd with
  | nil => exact ⟨rfl, rfl, rfl⟩
  | cons l ls ih =>
      cases h : ent.receiveShadow <;> simpa [encodeDirLights, h] using ih _

/-- The material-factory calls the entity loop performs: one per entity,
with consecutive ids. -/
def matsSpec (lt : LightType) (hn hp : Bool) (pc : Option Nat) (m : Nat) :
    List SEntity → List MaterialCall
  | [] => []
  | ent :: rest =>
      ⟨m, ent.graphId, ent.entId, pc, lt,
        hn && decide (lt = LightType.AMBIENT), hp && decide (lt = LightType.AMBIENT)⟩
        :: matsSpec lt hn hp pc (m + 1) rest

theorem encodeEntities_state (sc : Scene) (lt : LightType) (hn hp : Bool) (pc : Option Nat)
    (maps : ShadowMaps) (cmd : RenderCommand) (s : BuilderState) (ents : List SEntity) :
    (encodeEntities sc lt hn hp pc maps cmd s ents).2.2
      = { s with
          nextId := s.nextId + ents.length
          materialCalls := s.materialCalls ++ matsSpec lt hn hp pc s.nextId ents } := by
  induction ents generalizing cmd s with
  | nil => simp [encodeEntities, matsSpec]
  | cons ent rest ih =>
      simp [encodeEntities, createMaterial, matsSpec, ih, Nat.add_comm, Nat.add_assoc,
        Nat.add_left_comm]

theorem encodeEntities_snd (sc : Scene) (lt : LightType) (hn hp : Bool) (pc : Option Nat)
    (maps : ShadowMaps) (cmd : RenderCommand) (s : BuilderState) (ents : List SEntity) :
    (encodeEntities sc lt hn hp pc maps cmd s ents).2.1.renderPass = cmd.renderPass := by
  induction ents generalizing cmd s with
  | nil => rfl
  | cons ent rest ih =>
      cases lt with
      | AMBIENT => simpa [encodeEntities, createMaterial] using ih _ _
      | POINT =>
          have h := (encodePointLights_snd
            { cmd with material := some s.nextId, renderEntity := some ent.entId }
            sc.rig.pointLights).1
          simp only [encodeEntities, createMaterial]
          rw [ih]
          simpa using h
      | DIRECTIONAL =>
          have h := (encodeDirLights_snd ent maps
            { cmd with material := some s.nextId, renderEntity := some ent.entId }
            sc.rig.directionalLights).1
          simp only [encodeEntities, createMaterial]
          rw [ih]
          simpa using h

theorem encodeEntities_snd_shadowMap (sc : Scene) (lt : LightType) (hn hp : Bool)
    (pc : Option Nat) (maps : ShadowMaps) (cmd : RenderCommand) (s : BuilderState)
    (ents : List SEntity) (hlt : lt ≠ .DIRECTIONAL) :
    (encodeEntities sc lt hn hp pc maps cmd s ents).2.1.shadowMap = cmd.shadowMap := by
  induction ents generalizing cmd s with
  | nil => rfl
  | cons ent rest ih =>
      cases lt with
      | AMBIENT => simpa [encodeEntities, createMaterial] using ih _ _
      | POINT =>
          have h := (encodePointLights_snd
            { cmd with material := some s.nextId, renderEntity := some ent.entId }
            sc.rig.pointLights).2.2.2
          simp only [encodeEntities, createMaterial]
          rw [ih]
          simpa using h
      | DIRECTIONAL => exact absurd rfl hlt

/-- The ambient arm's queue contribution: one DRAW per entity, with
consecutive material ids; `rp`/`sm` are the pass reference and (inherited)
shadow-map field of the threaded command. -/
def ambSpec (amb : Nat) (rp sm : Option Nat) (m : Nat) : List SEntity → List RenderCommand
  | [] => []
  | ent :: rest =>
      { ctype := .DRAW, renderPass := rp, material := some m,
        renderEntity := some ent.entId, light := some amb, shadowMap := sm }
        :: ambSpec amb rp sm (m + 1) rest

theorem encodeEntities_amb_queue (sc : Scene) (hn hp : Bool) (pc : Option Nat)
    (maps : ShadowMaps) (cmd : RenderCommand) (s : BuilderState) (ents : List SEntity) :
    (encodeEntities sc .AMBIENT hn hp pc maps cmd s ents).1
      = ambSpec sc.rig.ambientLight cmd.renderPass cmd.shadowMap s.nextId ents := by
  induction ents generalizing cmd s with
  | nil => rfl
  | cons ent rest ih => simp [encodeEntities, createMaterial, ambSpec, ih]

/-- The point arm's queue contribution: per entity (outer), one DRAW per
point light (inner), the entity's material shared across its lights. -/
def pointSpec (pl : List Nat) (rp sm : Option Nat) (m : Nat) : List SEntity → List RenderCommand
  | [] => []
  | ent :: rest =>
      pl.map (fun l =>
        { ctype := .DRAW, renderPass := rp, material := some m,
          renderEntity := some ent.entId, light := some l, shadowMap := sm })
        ++ pointSpec pl rp sm (m + 1) rest

theorem encodeEntities_point_queue (sc : Scene) (hn hp : Bool) (pc : Option Nat)
    (maps : ShadowMaps) (cmd : RenderCommand) (s : BuilderState) (ents : List SEntity) :
    (encodeEntities sc .POINT hn hp pc maps cmd s ents).1
      = pointSpec sc.rig.pointLights cmd.renderPass cmd.shadowMap s.nextId ents := by
  induction ents generalizing cmd s with
  | nil => rfl
  | cons ent rest ih =>
      obtain ⟨h1, -, -, h4⟩ := encodePointLights_snd
        { cmd with material := some s.nextId, renderEntity := some ent.entId }
        sc.rig.pointLights
      simp [encodeEntities, createMaterial, pointSpec, encodePointLights_queue, ih, h1, h4]

theorem pointSpec_length (pl : List Nat) (rp sm : Option Nat) (m : Nat) (ents : List SEntity) :
    (pointSpec pl rp sm m ents).length = ents.length * pl.length := by
  induction ents generalizing m with
  | nil => simp [pointSpec]
  | cons ent rest ih => simp [pointSpec, ih, Nat.succ_mul, Nat.add_comm]

theorem pointSpec_proj (pl : List Nat) (rp sm : Option Nat) (m : Nat) (ents : List SEntity) :
    (pointSpec pl rp sm m ents).map (fun c => (c.renderEntity, c.light))
      = ents.flatMap (fun ent => pl.map (fun l => (some ent.entId, some l))) := by
  induction ents generalizing m with
  | nil => rfl
  | cons ent rest ih => simp [pointSpec, ih, Function.comp]

theorem ambSpec_length (amb : Nat) (rp sm : Option Nat) (m : Nat) (ents : List SEntity) :
    (ambSpec amb rp sm m ents).length = ents.length := by
  induction ents generalizing m with
  | nil => rfl
  | cons ent rest ih => simp [ambSpec, ih]

theorem ambSpec_mem (amb : Nat) (rp sm : Option Nat) (m : Nat) (ents : List SEntity) :
    ∀ c ∈ ambSpec amb rp sm m ents,
      c.ctype = .DRAW ∧ c.light = some amb ∧ c.renderPass = rp := by
  induction ents generalizing m with
  | nil => simp [ambSpec]
  | cons ent rest ih =>
      intro c hc
      simp only [ambSpec, List.mem_cons] at hc
      rcases hc with h | h
      · subst h; exact ⟨rfl, rfl, rfl⟩
      · exact ih _ c h

/-- The per-entity/per-light projection of the directional arm's queue. -/
def dirProjSpec (dls : List DirectionalLight) :
    List SEntity → List (Option Nat × Option Nat × RenderCommandType)
  | [] => []
  | ent :: rest =>
      dls.map (fun l => (some ent.entId, some l.lid, RenderCommandType.DRAW))
        ++ dirProjSpec dls rest

theorem encodeEntities_dir_proj (sc : Scene) (hn hp : Bool) (pc : Option Nat)
    (maps : ShadowMaps) (cmd : RenderCommand) (s : BuilderState) (ents : List SEntity) :
    ((encodeEntities sc .DIRECTIONAL hn hp pc maps cmd s ents).1).map
        (fun c => (c.renderEntity, c.light, c.ctype))
      = dirProjSpec sc.rig.directionalLights ents := by
  induction ents generalizing cmd s with
  | nil => rfl
  | cons ent rest ih =>
      cases h : ent.receiveShadow <;>
        simp [encodeEntities, createMaterial, dirProjSpec, encodeDirLights_queue, h, ih,
          Function.comp]

theorem encodeEntities_mem (sc : Scene) (lt : LightType) (hn hp : Bool) (pc : Option Nat)
    (maps : ShadowMaps) (cmd : RenderCommand) (s : BuilderState) (ents : List SEntity) :
    ∀ c ∈ (encodeEntities sc lt hn hp pc maps cmd s ents).1,
      c.ctype = .DRAW ∧ c.renderPass = cmd.renderPass := by
  induction ents generalizing cmd s with
  | nil => simp [encodeEntities]
  | cons ent rest ih =>
      intro c hc
      cases lt with
      | AMBIENT =>
          simp only [encodeEntities, createMaterial, List.mem_append] at hc
          rcases hc with h | h
          · simp only [List.mem_singleton] at h; subst h; exact ⟨rfl, rfl⟩
          · simpa using ih _ _ c h
      | POINT =>
          simp only [encodeEntities, createMaterial, List.mem_append] at hc
          rcases hc with h | h
          · rw [encodePointLights_queue] at h
            simp only [List.mem_map] at h
            obtain ⟨l, -, hl⟩ := h
            subst hl; exact ⟨rfl, rfl⟩
          · have h2 := ih ((encodePointLights
              { cmd with material := some s.nextId, renderEntity := some ent.entId }
              sc.rig.pointLights).2) _ c h
            rwa [(encodePointLights_snd _ _).1] at h2
      | DIRECTIONAL =>
          simp only [encodeEntities, createMaterial, List.mem_append] at hc
          rcases hc with h | h
          · rw [encodeDirLights_queue] at h
            simp only [List.mem_map] at h
            obtain ⟨l, -, hl⟩ := h
            cases hr : ent.receiveShadow <;> rw [hr] at hl <;> subst hl <;> exact ⟨rfl, rfl⟩
          · have h2 := ih ((encodeDirLights ent maps
              { cmd with material := some s.nextId, renderEntity := some ent.entId }
              sc.rig.directionalLights).2) _ c h
            rwa [(encodeDirLights_snd _ _ _ _).1] at h2

/-!
## Per-block lemmas for the encoding of one pass
-/

theorem pointSpec_nil (rp sm : Option Nat) (m : Nat) (ents : List SEntity) :
    pointSpec [] rp sm m ents = [] := by
  induction ents generalizing m with
  | nil => rfl
  | cons ent rest ih => simp [pointSpec, ih]

theorem dirProjSpec_nil (ents : List SEntity) : dirProjSpec [] ents = [] := by
  induction ents with
  | nil => rfl
  | cons ent rest ih => simp [dirProjSpec, ih]

theorem ambientBlock_queue (p : RenderPass) (maps : ShadowMaps) (cmd : RenderCommand)
    (s : BuilderState) :
    (ambientBlock p maps cmd s).1
      = if p.postProcessingDescription.ambientOcclusion.isSome then []
        else ambSpec (lookupScene s p.scene).rig.ambientLight cmd.renderPass cmd.shadowMap
          s.nextId (lookupScene s p.scene).entities := by
  by_cases h : p.postProcessingDescription.ambientOcclusion.isSome <;>
    simp [ambientBlock, h, encodeLightPassCommands, encodeEntities_amb_queue]

theorem ambientBlock_snd (p : RenderPass) (maps : ShadowMaps) (cmd : RenderCommand)
    (s : BuilderState) :
    (ambientBlock p maps cmd s).2.1.renderPass = cmd.renderPass ∧
    (ambientBlock p maps cmd s).2.1.shadowMap = cmd.shadowMap := by
  by_cases h : p.postProcessingDescription.ambientOcclusion.isSome
  · simp [ambientBlock, h]
  · constructor
    · simp [ambientBlock, h, encodeLightPassCommands, encodeEntities_snd]
    · simp only [ambientBlock, h, if_neg, Bool.false_eq_true, ite_false,
        encodeLightPassCommands]
      exact encodeEntities_snd_shadowMap _ _ _ _ _ _ _ _ _ (by simp)

theorem ambientBlock_state (p : RenderPass) (maps : ShadowMaps) (cmd : RenderCommand)
    (s : BuilderState) :
    (ambientBlock p maps cmd s).2.2
      = if p.postProcessingDescription.ambientOcclusion.isSome then s
        else
          { s with
            nextId := s.nextId + (lookupScene s p.scene).entities.length
            materialCalls := s.materialCalls
              ++ matsSpec .AMBIENT p.normalTarget.isSome p.positionTarget.isSome
                  p.colourTarget s.nextId (lookupScene s p.scene).entities } := by
  by_cases h : p.postProcessingDescription.ambientOcclusion.isSome <;>
    simp [ambientBlock, h, encodeLightPassCommands, encodeEntities_state]

theorem ambientBlock_mem (p : RenderPass) (maps : ShadowMaps) (cmd : RenderCommand)
    (s : BuilderState) :
    ∀ c ∈ (ambientBlock p maps cmd s).1, c.ctype = .DRAW ∧ c.renderPass = cmd.renderPass := by
  by_cases h : p.postProcessingDescription.ambientOcclusion.isSome
  · simp [ambientBlock, h]
  · simp only [ambientBlock, h, Bool.false_eq_true, ite_false, encodeLightPassCommands]
    exact encodeEntities_mem _ _ _ _ _ _ _ _ _

theorem pointBlock_queue (p : RenderPass) (maps : ShadowMaps) (cmd : RenderCommand)
    (s : BuilderState) :
    (pointBlock p maps cmd s).1
      = pointSpec (lookupScene s p.scene).rig.pointLights cmd.renderPass cmd.shadowMap
          s.nextId (lookupScene s p.scene).entities := by
  by_cases h : (lookupScene s p.scene).rig.pointLights.isEmpty
  · rw [List.isEmpty_iff] at h
    simp [pointBlock, h, pointSpec_nil]
  · simp [pointBlock, h, encodeLightPassCommands, encodeEntities_point_queue]

theorem pointBlock_snd (p : RenderPass) (maps : ShadowMaps) (cmd : RenderCommand)
    (s : BuilderState) :
    (pointBlock p maps cmd s).2.1.renderPass = cmd.renderPass ∧
    (pointBlock p maps cmd s).2.1.shadowMap = cmd.shadowMap := by
  by_cases h : (lookupScene s p.scene).rig.pointLights.isEmpty
  · simp [pointBlock, h]
  · constructor
    · simp [pointBlock, h, encodeLightPassCommands, encodeEntities_snd]
    · simp only [pointBlock, h, Bool.false_eq_true, ite_false, encodeLightPassCommands]
      exact encodeEntities_snd_shadowMap _ _ _ _ _ _ _ _ _ (by simp)

theorem pointBlock_state (p : RenderPass) (maps : ShadowMaps) (cmd : RenderCommand)
    (s : BuilderState) :
    (pointBlock p maps cmd s).2.2
      = if (lookupScene s p.scene).rig.pointLights.isEmpty then s
        else
          { s with
            nextId := s.nextId + (lookupScene s p.scene).entities.length
            materialCalls := s.materialCalls
              ++ matsSpec .POINT p.normalTarget.isSome p.positionTarget.isSome
                  p.colourTarget s.nextId (lookupScene s p.scene).entities } := by
  by_cases h : (lookupScene s p.scene).rig.pointLights.isEmpty <;>
    simp [pointBlock, h, encodeLightPassCommands, encodeEntities_state]

theorem pointBlock_mem (p : RenderPass) (maps : ShadowMaps) (cmd : RenderCommand)
    (s : BuilderState) :
    ∀ c ∈ (pointBlock p maps cmd s).1, c.ctype = .DRAW ∧ c.renderPass = cmd.renderPass := by
  by_cases h : (lookupScene s p.scene).rig.pointLights.isEmpty
  · simp [pointBlock, h]
  · simp only [pointBlock, h, Bool.false_eq_true, ite_false, encodeLightPassCommands]
    exact encodeEntities_mem _ _ _ _ _ _ _ _ _

theorem dirBlock_proj (p : RenderPass) (maps : ShadowMaps) (cmd : RenderCommand)
    (s : BuilderState) :
    ((dirBlock p maps cmd s).1).map (fun c => (c.renderEntity, c.light, c.ctype))
      = dirProjSpec (lookupScene s p.scene).rig.directionalLights
          (lookupScene s p.scene).entities := by
  by_cases h : (lookupScene s p.scene).rig.directionalLights.isEmpty
  · rw [List.isEmpty_iff] at h
    simp [dirBlock, h, List.isEmpty_nil, dirProjSpec_nil]
  · simp [dirBlock, h, encodeLightPassCommands, encodeEntities_dir_proj]

theorem dirBlock_snd (p : RenderPass) (maps : ShadowMaps) (cmd : RenderCommand)
    (s : BuilderState) :
    (dirBlock p maps cmd s).2.1.renderPass = cmd.renderPass := by
  by_cases h : (lookupScene s p.scene).rig.directionalLights.isEmpty <;>
    simp [dirBlock, h, encodeLightPassCommands, encodeEntities_snd]

theorem dirBlock_state (p : RenderPass) (maps : ShadowMaps) (cmd : RenderCommand)
    (s : BuilderState) :
    (dirBlock p maps cmd s).2.2
      = if (lookupScene s p.scene).rig.directionalLights.isEmpty then s
        else
          { s with
            nextId := s.nextId + (lookupScene s p.scene).entities.length
            materialCalls := s.materialCalls
              ++ matsSpec .DIRECTIONAL p.normalTarget.isSome p.positionTarget.isSome
                  p.colourTarget s.nextId (lookupScene s p.scene).entities } := by
  by_cases h : (lookupScene s p.scene).rig.directionalLights.isEmpty <;>
    simp [dirBlock, h, encodeLightPassCommands, encodeEntities_state]

theorem dirBlock_mem (p : RenderPass) (maps : ShadowMaps) (cmd : RenderCommand)
    (s : BuilderState) :
    ∀ c ∈ (dirBlock p maps cmd s).1, c.ctype = .DRAW ∧ c.renderPass = cmd.renderPass := by
  by_cases h : (lookupScene s p.scene).rig.directionalLights.isEmpty
  · simp [dirBlock, h]
  · simp only [dirBlock, h, Bool.false_eq_true, ite_false, encodeLightPassCommands]
    exact encodeEntities_mem _ _ _ _ _ _ _ _ _

theorem skyBoxBlock_none (p : RenderPass) (cmd : RenderCommand) (s : BuilderState)
    (h : p.skyBox = none) : skyBoxBlock p cmd s = ([], cmd, s) := by
  simp [skyBoxBlock, h]

theorem skyBoxBlock_length (p : RenderPass) (cmd : RenderCommand) (s : BuilderState) :
    (skyBoxBlock p cmd s).1.length = if p.skyBox.isSome then 1 else 0 := by
  cases h : p.skyBox <;> simp [skyBoxBlock, h]

theorem skyBoxBlock_mem (p : RenderPass) (cmd : RenderCommand) (s : BuilderState) :
    ∀ c ∈ (skyBoxBlock p cmd s).1, c.ctype = .DRAW ∧ c.renderPass = cmd.renderPass := by
  cases h : p.skyBox with
  | none => simp [skyBoxBlock, h]
  | some cm =>
      intro c hc
      simp only [skyBoxBlock, h, freshId, createMaterial, List.mem_singleton] at hc
      subst hc
      exact ⟨rfl, rfl⟩

theorem skyBoxBlock_snd (p : RenderPass) (cmd : RenderCommand) (s : BuilderState) :
    (skyBoxBlock p cmd s).2.1.renderPass = cmd.renderPass := by
  cases h : p.skyBox <;> simp [skyBoxBlock, h, freshId, createMaterial]

theorem lightsBlock_depthOnly (p : RenderPass) (maps : ShadowMaps) (cmd : RenderCommand)
    (s : BuilderState) (h : p.depthOnly = true) :
    lightsBlock p maps cmd s = ([], cmd, s) := by
  simp [lightsBlock, h]

theorem lightsBlock_queue (p : RenderPass) (maps : ShadowMaps) (cmd : RenderCommand)
    (s : BuilderState) (h : p.depthOnly = false) :
    (lightsBlock p maps cmd s).1
      = (pointBlock p maps cmd s).1
        ++ (dirBlock p maps (pointBlock p maps cmd s).2.1 (pointBlock p maps cmd s).2.2).1
        ++ (skyBoxBlock p
              (dirBlock p maps (pointBlock p maps cmd s).2.1 (pointBlock p maps cmd s).2.2).2.1
              (dirBlock p maps (pointBlock p maps cmd s).2.1 (pointBlock p maps cmd s).2.2).2.2).1 := by
  simp [lightsBlock, h]

theorem lightsBlock_mem (p : RenderPass) (maps : ShadowMaps) (cmd : RenderCommand)
    (s : BuilderState) :
    ∀ c ∈ (lightsBlock p maps cmd s).1, c.ctype = .DRAW ∧ c.renderPass = cmd.renderPass := by
  cases h : p.depthOnly
  · intro c hc
    rw [lightsBlock_queue p maps cmd s h] at hc
    simp only [List.mem_append] at hc
    rcases hc with (hc | hc) | hc
    · exact pointBlock_mem p maps cmd s c hc
    · have h2 := dirBlock_mem p maps _ _ c hc
      rwa [(pointBlock_snd p maps cmd s).1] at h2
    · have h2 := skyBoxBlock_mem p _ _ c hc
      rwa [dirBlock_snd, (pointBlock_snd p maps cmd s).1] at h2
  · rw [lightsBlock_depthOnly p maps cmd s h]
    simp

theorem lightsBlock_snd (p : RenderPass) (maps : ShadowMaps) (cmd : RenderCommand)
    (s : BuilderState) :
    (lightsBlock p maps cmd s).2.1.renderPass = cmd.renderPass := by
  cases h : p.depthOnly
  · simp only [lightsBlock, h, Bool.false_eq_true, ite_false]
    rw [skyBoxBlock_snd, dirBlock_snd, (pointBlock_snd p maps cmd s).1]
  · rw [lightsBlock_depthOnly p maps cmd s h]

/-!
## The span structure of the command stream
-/

/-- The commands a single pass contributes: exactly one PASS_START, then
DRAW commands only, then exactly one PASS_END, all referencing pass `i`. -/
def IsSpan (i : Nat) (q : List RenderCommand) : Prop :=
  ∃ sc mids ec,
    q = sc :: mids ++ [ec] ∧
    sc.ctype = .PASS_START ∧ sc.renderPass = some i ∧
    ec.ctype = .PASS_END ∧ ec.renderPass = some i ∧
    (∀ c ∈ mids, c.ctype = .DRAW ∧ c.renderPass = some i)

theorem IsSpan.no_present {i : Nat} {q : List RenderCommand} (h : IsSpan i q) :
    ∀ c ∈ q, c.ctype ≠ .PRESENT := by
  obtain ⟨sc, mids, ec, hq, hsc, -, hec, -, hmids⟩ := h
  subst hq
  intro c hc
  rcases List.mem_cons.mp hc with h | h
  · subst h; simp [hsc]
  · rcases List.mem_append.mp h with h | h
    · have := (hmids c h).1; simp [this]
    · rw [List.mem_singleton] at h; subst h; simp [hec]

theorem encodeOnePass_queue (idx : Nat) (p : RenderPass) (maps : ShadowMaps)
    (cmd : RenderCommand) (s : BuilderState) :
    (encodeOnePass idx p maps cmd s).1
      = { cmd with renderPass := some idx, ctype := RenderCommandType.PASS_START }
          :: ((ambientBlock p maps
                { cmd with renderPass := some idx, ctype := RenderCommandType.PASS_START } s).1
              ++ (lightsBlock p maps
                    (ambientBlock p maps
                      { cmd with renderPass := some idx, ctype := RenderCommandType.PASS_START } s).2.1
                    (ambientBlock p maps
                      { cmd with renderPass := some idx, ctype := RenderCommandType.PASS_START } s).2.2).1)
          ++ [{ (lightsBlock p maps
                  (ambientBlock p maps
                    { cmd with renderPass := some idx, ctype := RenderCommandType.PASS_START } s).2.1
                  (ambientBlock p maps
                    { cmd with renderPass := some idx, ctype := RenderCommandType.PASS_START } s).2.2).2.1
                with ctype := RenderCommandType.PASS_END }] := by
  simp [encodeOnePass]

theorem encodeOnePass_span (idx : Nat) (p : RenderPass) (maps : ShadowMaps)
    (cmd : RenderCommand) (s : BuilderState) :
    IsSpan idx (encodeOnePass idx p maps cmd s).1 := by
  refine ⟨_, _, _, encodeOnePass_queue idx p maps cmd s, rfl, rfl, rfl, ?_, ?_⟩
  · show ({ (lightsBlock _ _ _ _).2.1 with ctype := RenderCommandType.PASS_END }
      : RenderCommand).renderPass = some idx
    rw [show ({ (lightsBlock p maps (ambientBlock p maps
        { cmd with renderPass := some idx, ctype := RenderCommandType.PASS_START } s).2.1
        (ambientBlock p maps
        { cmd with renderPass := some idx, ctype := RenderCommandType.PASS_START } s).2.2).2.1
        with ctype := RenderCommandType.PASS_END } : RenderCommand).renderPass
      = (lightsBlock p maps (ambientBlock p maps
        { cmd with renderPass := some idx, ctype := RenderCommandType.PASS_START } s).2.1
        (ambientBlock p maps
        { cmd with renderPass := some idx, ctype := RenderCommandType.PASS_START } s).2.2).2.1.renderPass
      from rfl]
    rw [lightsBlock_snd, (ambientBlock_snd p maps _ s).1]
  · intro c hc
    simp only [List.mem_append] at hc
    rcases hc with h | h
    · exact ambientBlock_mem p maps _ s c h
    · have h2 := lightsBlock_mem p maps _ _ c h
      rwa [(ambientBlock_snd p maps _ s).1] at h2

theorem encodePasses_spans (maps : ShadowMaps) (cmd : RenderCommand) (s : BuilderState)
    (idx : Nat) (ps : List RenderPass) :
    ∃ spans : List (List RenderCommand),
      (encodePasses maps cmd s idx ps).1 = spans.flatten ∧
      spans.length = ps.length ∧
      (∀ k (hk : k < spans.length), IsSpan (idx + k) (spans.get ⟨k, hk⟩)) := by
  induction ps generalizing cmd s idx with
  | nil => exact ⟨[], rfl, rfl, by simp⟩
  | cons p ps ih =>
      obtain ⟨spans, h1, h2, h3⟩ :=
        ih (encodeOnePass idx p maps cmd s).2.1 (encodeOnePass idx p maps cmd s).2.2 (idx + 1)
      refine ⟨(encodeOnePass idx p maps cmd s).1 :: spans, ?_, by simp [h2], ?_⟩
      · simp [encodePasses, h1]
      · intro k hk
        match k with
        | 0 => simpa using encodeOnePass_span idx p maps cmd s
        | k + 1 =>
            have hk' : k < spans.length := by simpa using hk
            have := h3 k hk'
            simpa [Nat.add_assoc, Nat.add_comm 1 k] using this

/-- C1: for every input pass list, the output command sequence is a
concatenation of per-pass spans — one per pass of the final (surviving)
pass list, each consisting of exactly one PASS_START, then DRAW commands
only, then exactly one PASS_END, all carrying that pass's reference and
with no other pass's commands interleaved — followed by exactly one
PRESENT, which is the last command and occurs nowhere else. -/
theorem build_span_structure (w h n0 : Nat) (scenes : List Scene) (passes : List RenderPass) :
    ∃ (spans : List (List RenderCommand)) (pc : RenderCommand),
      (buildRun w h n0 scenes passes).1 = spans.flatten ++ [pc] ∧
      pc.ctype = .PRESENT ∧
      spans.length = (buildRun w h n0 scenes passes).2.1.length ∧
      (∀ k (hk : k < spans.length), IsSpan k (spans.get ⟨k, hk⟩)) ∧
      (∀ c ∈ spans.flatten, c.ctype ≠ .PRESENT) := by
  obtain ⟨spans, h1, h2, h3⟩ := encodePasses_spans
    (injectAll [] [] (initState w h n0 scenes) passes).2.2.1 {}
    (addPostProcessingPasses [] (injectAll [] [] (initState w h n0 scenes) passes).2.2.2
      ((injectAll [] [] (initState w h n0 scenes) passes).2.1
        ++ (injectAll [] [] (initState w h n0 scenes) passes).1)).2
    0
    (addPostProcessingPasses [] (injectAll [] [] (initState w h n0 scenes) passes).2.2.2
      ((injectAll [] [] (initState w h n0 scenes) passes).2.1
        ++ (injectAll [] [] (initState w h n0 scenes) passes).1)).1
  obtain ⟨pc, hb, hpc⟩ :
      ∃ pc, (buildRun w h n0 scenes passes).1
          = (encodePasses (injectAll [] [] (initState w h n0 scenes) passes).2.2.1 {}
              (addPostProcessingPasses []
                (injectAll [] [] (initState w h n0 scenes) passes).2.2.2
                ((injectAll [] [] (initState w h n0 scenes) passes).2.1
                  ++ (injectAll [] [] (initState w h n0 scenes) passes).1)).2
              0
              (addPostProcessingPasses []
                (injectAll [] [] (initState w h n0 scenes) passes).2.2.2
                ((injectAll [] [] (initState w h n0 scenes) passes).2.1
                  ++ (injectAll [] [] (initState w h n0 scenes) passes).1)).1).1 ++ [pc]
        ∧ pc.ctype = .PRESENT := ⟨_, rfl, rfl⟩
  refine ⟨spans, pc, by rw [hb, h1], hpc, h2, fun k hk => by simpa using h3 k hk, ?_⟩
  intro c hc
  obtain ⟨l, hl, hcl⟩ := List.mem_flatten.mp hc
  obtain ⟨n, hn⟩ := List.mem_iff_get.mp hl
  exact IsSpan.no_present (by simpa using h3 n.1 n.2) c (hn ▸ hcl)

/-- The command value after `set_render_pass` and `set_type(PASS_START)` at
the top of the encoding loop body. -/
def passStart (idx : Nat) (cmd : RenderCommand) : RenderCommand :=
  { cmd with renderPass := some idx, ctype := RenderCommandType.PASS_START }

theorem matsSpec_mem (lt : LightType) (hn hp : Bool) (pc : Option Nat) (m : Nat)
    (ents : List SEntity) :
    ∀ mc ∈ matsSpec lt hn hp pc m ents, mc.lightType = lt := by
  induction ents generalizing m with
  | nil => simp [matsSpec]
  | cons ent rest ih =>
      intro mc hmc
      simp only [matsSpec, List.mem_cons] at hmc
      rcases hmc with h | h
      · subst h; rfl
      · exact ih _ mc h

theorem lookupScene_eq {s' s : BuilderState} (h1 : s'.scenes = s.scenes)
    (h2 : s'.passData = s.passData) (r : SceneRef) : lookupScene s' r = lookupScene s r := by
  cases r <;> simp [lookupScene, h1, h2]

theorem ambientBlock_store (p : RenderPass) (maps : ShadowMaps) (cmd : RenderCommand)
    (s : BuilderState) :
    (ambientBlock p maps cmd s).2.2.scenes = s.scenes ∧
    (ambientBlock p maps cmd s).2.2.passData = s.passData := by
  rw [ambientBlock_state]
  by_cases h : p.postProcessingDescription.ambientOcclusion.isSome <;> simp [h]

theorem pointBlock_store (p : RenderPass) (maps : ShadowMaps) (cmd : RenderCommand)
    (s : BuilderState) :
    (pointBlock p maps cmd s).2.2.scenes = s.scenes ∧
    (pointBlock p maps cmd s).2.2.passData = s.passData := by
  rw [pointBlock_state]
  by_cases h : (lookupScene s p.scene).rig.pointLights.isEmpty <;> simp [h]

theorem dirBlock_store (p : RenderPass) (maps : ShadowMaps) (cmd : RenderCommand)
    (s : BuilderState) :
    (dirBlock p maps cmd s).2.2.scenes = s.scenes ∧
    (dirBlock p maps cmd s).2.2.passData = s.passData := by
  rw [dirBlock_state]
  by_cases h : (lookupScene s p.scene).rig.directionalLights.isEmpty <;> simp [h]

theorem updateScene_materialCalls (s : BuilderState) (r : SceneRef) (f : Scene → Scene) :
    (updateScene s r f).materialCalls = s.materialCalls := by
  cases r with
  | caller i => simp [updateScene]
  | arena i => cases h : s.passData[i]? <;> simp [updateScene, List.get?_eq_getElem?, h]

theorem updateScene_nextId (s : BuilderState) (r : SceneRef) (f : Scene → Scene) :
    (updateScene s r f).nextId = s.nextId := by
  cases r with
  | caller i => simp [updateScene]
  | arena i => cases h : s.passData[i]? <;> simp [updateScene, List.get?_eq_getElem?, h]

/-- C3: for every pass in the final pass list, the encoding of that pass
decomposes as PASS_START, the ambient block, the non-depth-only lights
block, PASS_END; the ambient block contains one DRAW per entity of the
pass's scene (with the scene's ambient light) exactly when the pass does
not request ambient occlusion — independently of `depth_only` — and is
empty when it does; a depth-only pass's lights block (point, directional
and sky-box draws) is empty. -/
theorem ambient_iff_no_ao_and_depth_only_gating (idx : Nat) (p : RenderPass)
    (maps : ShadowMaps) (cmd : RenderCommand) (s : BuilderState) :
    (encodeOnePass idx p maps cmd s).1
      = passStart idx cmd
          :: ((ambientBlock p maps (passStart idx cmd) s).1
              ++ (lightsBlock p maps (ambientBlock p maps (passStart idx cmd) s).2.1
                    (ambientBlock p maps (passStart idx cmd) s).2.2).1)
          ++ [{ (lightsBlock p maps (ambientBlock p maps (passStart idx cmd) s).2.1
                  (ambientBlock p maps (passStart idx cmd) s).2.2).2.1
                with ctype := RenderCommandType.PASS_END }]
    ∧ (ambientBlock p maps (passStart idx cmd) s).1.length
        = (if p.postProcessingDescription.ambientOcclusion.isSome then 0
           else (lookupScene s p.scene).entities.length)
    ∧ (∀ c ∈ (ambientBlock p maps (passStart idx cmd) s).1,
        c.ctype = .DRAW ∧ c.light = some (lookupScene s p.scene).rig.ambientLight)
    ∧ (p.depthOnly = true →
        (lightsBlock p maps (ambientBlock p maps (passStart idx cmd) s).2.1
          (ambientBlock p maps (passStart idx cmd) s).2.2).1 = []) := by
  refine ⟨encodeOnePass_queue idx p maps cmd s, ?_, ?_, ?_⟩
  · rw [ambientBlock_queue]
    by_cases h : p.postProcessingDescription.ambientOcclusion.isSome <;>
      simp [h, ambSpec_length]
  · intro c hc
    rw [ambientBlock_queue] at hc
    by_cases h : p.postProcessingDescription.ambientOcclusion.isSome
    · rw [if_pos h] at hc; cases hc
    · rw [if_neg h] at hc
      have := ambSpec_mem _ _ _ _ _ c hc
      exact ⟨this.1, this.2.1⟩
  · intro h
    rw [lightsBlock_depthOnly _ _ _ _ h]

/-- C9: encoding directional-light draws for a shadow-receiving entity
always writes the shadow-map field from the table lookup, whose result for
a light with no recorded entry is the explicit "no shadow map" value
`none`; one DRAW is still emitted per light (no error, no abort). -/
theorem missing_shadow_entry_yields_none (ent : SEntity) (maps : ShadowMaps)
    (cmd : RenderCommand) (ls : List DirectionalLight) (h : ent.receiveShadow = true) :
    (encodeDirLights ent maps cmd ls).1
      = ls.map (fun l =>
          { cmd with ctype := .DRAW, light := some l.lid, shadowMap := shadowLookup maps l.lid })
    ∧ (encodeDirLights ent maps cmd ls).1.length = ls.length
    ∧ (∀ lid, mapLookup lid maps = none → shadowLookup maps lid = none) := by
  refine ⟨?_, ?_, fun lid h2 => h2⟩
  · rw [encodeDirLights_queue]; simp [h]
  · rw [encodeDirLights_queue]; simp

/-- C7: for a pass with `depth_only = false` and no ambient occlusion, the
pass's span encodes, in order, the ambient block, then the point block,
then the directional block, then the sky-box block; the point block holds
exactly `entities × point-lights` DRAW commands, iterated with entities
outer and the scene's point lights inner, each command carrying the input
light at that position; the directional block projects to the same
entity-outer/light-inner nesting, and the sky-box block holds at most one
command. -/
theorem point_light_fanout_and_order (idx : Nat) (p : RenderPass) (maps : ShadowMaps)
    (cmd : RenderCommand) (s : BuilderState)
    (qA qP qD qS : List RenderCommand) (cmdA cmdP cmdD cmdS : RenderCommand)
    (sA sP sD sS : BuilderState)
    (hA : ambientBlock p maps (passStart idx cmd) s = (qA, cmdA, sA))
    (hP : pointBlock p maps cmdA sA = (qP, cmdP, sP))
    (hD : dirBlock p maps cmdP sP = (qD, cmdD, sD))
    (hS : skyBoxBlock p cmdD sD = (qS, cmdS, sS))
    (hd : p.depthOnly = false)
    (hao : p.postProcessingDescription.ambientOcclusion = none) :
    (encodeOnePass idx p maps cmd s).1
      = passStart idx cmd :: (qA ++ (qP ++ qD ++ qS))
          ++ [{ cmdS with ctype := RenderCommandType.PASS_END }]
    ∧ qP = pointSpec (lookupScene s p.scene).rig.pointLights (some idx) cmd.shadowMap
        (s.nextId + (lookupScene s p.scene).entities.length) (lookupScene s p.scene).entities
    ∧ qP.length
        = (lookupScene s p.scene).entities.length * (lookupScene s p.scene).rig.pointLights.length
    ∧ qP.map (fun c => (c.renderEntity, c.light))
        = (lookupScene s p.scene).entities.flatMap (fun ent =>
            (lookupScene s p.scene).rig.pointLights.map (fun l => (some ent.entId, some l)))
    ∧ (∀ c ∈ qP, c.ctype = .DRAW)
    ∧ qD.map (fun c => (c.renderEntity, c.light, c.ctype))
        = dirProjSpec (lookupScene s p.scene).rig.directionalLights
            (lookupScene s p.scene).entities
    ∧ qS.length = (if p.skyBox.isSome then 1 else 0) := by
  have hsA : sA = { s with
      nextId := s.nextId + (lookupScene s p.scene).entities.length
      materialCalls := s.materialCalls
        ++ matsSpec .AMBIENT p.normalTarget.isSome p.positionTarget.isSome
            p.colourTarget s.nextId (lookupScene s p.scene).entities } := by
    have h' := ambientBlock_state p maps (passStart idx cmd) s
    rw [hA] at h'
    simpa [hao] using h'
  have hcmdA : cmdA.renderPass = some idx ∧ cmdA.shadowMap = cmd.shadowMap := by
    have h' := ambientBlock_snd p maps (passStart idx cmd) s
    rw [hA] at h'
    exact ⟨h'.1, h'.2⟩
  have hscA : lookupScene sA p.scene = lookupScene s p.scene := by
    subst hsA; exact lookupScene_eq rfl rfl _
  have hqP : qP = pointSpec (lookupScene s p.scene).rig.pointLights (some idx) cmd.shadowMap
      (s.nextId + (lookupScene s p.scene).entities.length) (lookupScene s p.scene).entities := by
    have h' : qP = pointSpec (lookupScene sA p.scene).rig.pointLights cmdA.renderPass
        cmdA.shadowMap sA.nextId (lookupScene sA p.scene).entities := by
      have h'' := pointBlock_queue p maps cmdA sA
      rw [hP] at h''
      exact h''
    rw [h', hscA, hcmdA.1, hcmdA.2, hsA]
  have hsP : sP.scenes = s.scenes ∧ sP.passData = s.passData := by
    have h' := pointBlock_store p maps cmdA sA
    rw [hP] at h'
    subst hsA
    exact ⟨h'.1, h'.2⟩
  have hscP : lookupScene sP p.scene = lookupScene s p.scene := lookupScene_eq hsP.1 hsP.2 _
  have hL : lightsBlock p maps cmdA sA = (qP ++ qD ++ qS, cmdS, sS) := by
    simp [lightsBlock, hd, hP, hD, hS]
  refine ⟨?_, hqP, ?_, ?_, ?_, ?_, ?_⟩
  · have h' := encodeOnePass_queue idx p maps cmd s
    simp only [passStart] at hA ⊢
    rw [hA] at h'
    simp only at h'
    rw [h'] at *
    have h'' : lightsBlock p maps cmdA sA = (qP ++ qD ++ qS, cmdS, sS) := hL
    rw [h'']
  · rw [hqP, pointSpec_length]
  · rw [hqP, pointSpec_proj]
  · intro c hc
    have h' := pointBlock_mem p maps cmdA sA
    rw [hP] at h'
    exact (h' c hc).1
  · have h' : qD.map (fun c => (c.renderEntity, c.light, c.ctype))
        = dirProjSpec (lookupScene sP p.scene).rig.directionalLights
            (lookupScene sP p.scene).entities := by
      have h'' := dirBlock_proj p maps cmdP sP
      rw [hD] at h''
      exact h''
    rw [h', hscP]
  · have h' := skyBoxBlock_length p cmdD sD
    rw [hS] at h'
    exact h'

/-!
## Material-factory calls per block
-/

theorem ambientBlock_calls (p : RenderPass) (maps : ShadowMaps) (cmd : RenderCommand)
    (s : BuilderState) :
    ∀ mc ∈ (ambientBlock p maps cmd s).2.2.materialCalls,
      mc ∈ s.materialCalls ∨ mc.lightType = .AMBIENT := by
  intro mc hmc
  rw [ambientBlock_state] at hmc
  by_cases h : p.postProcessingDescription.ambientOcclusion.isSome
  · rw [if_pos h] at hmc; exact Or.inl hmc
  · rw [if_neg h] at hmc
    have hmc' : mc ∈ s.materialCalls
        ++ matsSpec .AMBIENT p.normalTarget.isSome p.positionTarget.isSome
            p.colourTarget s.nextId (lookupScene s p.scene).entities := hmc
    rcases List.mem_append.mp hmc' with h2 | h2
    · exact Or.inl h2
    · exact Or.inr (matsSpec_mem _ _ _ _ _ _ mc h2)

theorem pointBlock_calls (p : RenderPass) (maps : ShadowMaps) (cmd : RenderCommand)
    (s : BuilderState) :
    ∀ mc ∈ (pointBlock p maps cmd s).2.2.materialCalls,
      mc ∈ s.materialCalls
      ∨ (mc.lightType = .POINT ∧ (lookupScene s p.scene).rig.pointLights ≠ []) := by
  intro mc hmc
  rw [pointBlock_state] at hmc
  by_cases h : (lookupScene s p.scene).rig.pointLights.isEmpty
  · rw [if_pos h] at hmc; exact Or.inl hmc
  · rw [if_neg h] at hmc
    have hmc' : mc ∈ s.materialCalls
        ++ matsSpec .POINT p.normalTarget.isSome p.positionTarget.isSome
            p.colourTarget s.nextId (lookupScene s p.scene).entities := hmc
    rcases List.mem_append.mp hmc' with h2 | h2
    · exact Or.inl h2
    · exact Or.inr ⟨matsSpec_mem _ _ _ _ _ _ mc h2, by simpa [List.isEmpty_iff] using h⟩

theorem dirBlock_calls (p : RenderPass) (maps : ShadowMaps) (cmd : RenderCommand)
    (s : BuilderState) :
    ∀ mc ∈ (dirBlock p maps cmd s).2.2.materialCalls,
      mc ∈ s.materialCalls
      ∨ (mc.lightType = .DIRECTIONAL ∧ (lookupScene s p.scene).rig.directionalLights ≠ []) := by
  intro mc hmc
  rw [dirBlock_state] at hmc
  by_cases h : (lookupScene s p.scene).rig.directionalLights.isEmpty
  · rw [if_pos h] at hmc; exact Or.inl hmc
  · rw [if_neg h] at hmc
    have hmc' : mc ∈ s.materialCalls
        ++ matsSpec .DIRECTIONAL p.normalTarget.isSome p.positionTarget.isSome
            p.colourTarget s.nextId (lookupScene s p.scene).entities := hmc
    rcases List.mem_append.mp hmc' with h2 | h2
    · exact Or.inl h2
    · exact Or.inr ⟨matsSpec_mem _ _ _ _ _ _ mc h2, by simpa [List.isEmpty_iff] using h⟩

theorem skyBoxBlock_calls (p : RenderPass) (cmd : RenderCommand) (s : BuilderState) :
    ∀ mc ∈ (skyBoxBlock p cmd s).2.2.materialCalls,
      mc ∈ s.materialCalls ∨ mc.lightType = .AMBIENT := by
  intro mc hmc
  cases h : p.skyBox with
  | none => rw [skyBoxBlock_none p cmd s h] at hmc; exact Or.inl hmc
  | some cm =>
      simp only [skyBoxBlock, h, freshId, createMaterial, updateScene_materialCalls,
        List.mem_append, List.mem_singleton] at hmc
      rcases hmc with h2 | h2
      · exact Or.inl h2
      · subst h2; exact Or.inr rfl

theorem skyBoxBlock_store (p : RenderPass) (cmd : RenderCommand) (s : BuilderState)
    (h : p.skyBox = none) :
    (skyBoxBlock p cmd s).2.2 = s := by
  rw [skyBoxBlock_none p cmd s h]

theorem lightsBlock_calls (p : RenderPass) (maps : ShadowMaps) (cmd : RenderCommand)
    (s : BuilderState) :
    ∀ mc ∈ (lightsBlock p maps cmd s).2.2.materialCalls,
      mc ∈ s.materialCalls
      ∨ mc.lightType = .AMBIENT
      ∨ (mc.lightType = .POINT ∧ (lookupScene s p.scene).rig.pointLights ≠ [])
      ∨ (mc.lightType = .DIRECTIONAL ∧ (lookupScene s p.scene).rig.directionalLights ≠ []) := by
  intro mc hmc
  cases hdo : p.depthOnly with
  | true =>
      rw [lightsBlock_depthOnly p maps cmd s hdo] at hmc
      exact Or.inl hmc
  | false =>
      rcases hP : pointBlock p maps cmd s with ⟨qP, cmdP, sP⟩
      rcases hD : dirBlock p maps cmdP sP with ⟨qD, cmdD, sD⟩
      rcases hS : skyBoxBlock p cmdD sD with ⟨qS, cmdS, sS⟩
      have hfin : (lightsBlock p maps cmd s).2.2 = sS := by
        simp [lightsBlock, hdo, hP, hD, hS]
      rw [hfin] at hmc
      have hPstore := pointBlock_store p maps cmd s
      rw [hP] at hPstore
      have hsky := skyBoxBlock_calls p cmdD sD
      rw [hS] at hsky
      rcases hsky mc hmc with h2 | h2
      · have hdir := dirBlock_calls p maps cmdP sP
        rw [hD] at hdir
        rcases hdir mc h2 with h3 | h3
        · have hpoint := pointBlock_calls p maps cmd s
          rw [hP] at hpoint
          rcases hpoint mc h3 with h4 | h4
          · exact Or.inl h4
          · exact Or.inr (Or.inr (Or.inl h4))
        · rw [lookupScene_eq hPstore.1 hPstore.2] at h3
          exact Or.inr (Or.inr (Or.inr h3))
      · exact Or.inr (Or.inl h2)

/-- C10: for every pass, `build` performs a material-factory invocation
with light type POINT only when the pass's scene has at least one point
light, and with light type DIRECTIONAL only when it has at least one
directional light; every other invocation of the pass (ambient, sky box)
uses the AMBIENT light type.  In particular a pass over a scene with an
empty point-light (or directional-light) collection incurs no POINT
(resp. DIRECTIONAL) material-creation side effect. -/
theorem no_material_calls_for_empty_light_category (idx : Nat) (p : RenderPass)
    (maps : ShadowMaps) (cmd : RenderCommand) (s : BuilderState) :
    ∀ mc ∈ ((encodeOnePass idx p maps cmd s).2.2).materialCalls,
      mc ∈ s.materialCalls
      ∨ mc.lightType = .AMBIENT
      ∨ (mc.lightType = .POINT ∧ (lookupScene s p.scene).rig.pointLights ≠ [])
      ∨ (mc.lightType = .DIRECTIONAL ∧ (lookupScene s p.scene).rig.directionalLights ≠ []) := by
  intro mc hmc
  have hfin : (encodeOnePass idx p maps cmd s).2.2
      = (lightsBlock p maps (ambientBlock p maps (passStart idx cmd) s).2.1
          (ambientBlock p maps (passStart idx cmd) s).2.2).2.2 := by
    simp [encodeOnePass, passStart]
  rw [hfin] at hmc
  have hAstore := ambientBlock_store p maps (passStart idx cmd) s
  rcases lightsBlock_calls p maps _ _ mc hmc with h | h | h | h
  · rcases ambientBlock_calls p maps (passStart idx cmd) s mc h with h2 | h2
    · exact Or.inl h2
    · exact Or.inr (Or.inl h2)
  · exact Or.inr (Or.inl h)
  · rw [lookupScene_eq hAstore.1 hAstore.2] at h
    exact Or.inr (Or.inr (Or.inl h))
  · rw [lookupScene_eq hAstore.1 hAstore.2] at h
    exact Or.inr (Or.inr (Or.inr h))

/-!
## Concrete fixtures

Small concrete scenes and passes used to evaluate `build` at specific
inputs.
-/

/-- A caller camera (perspective, 800×600). -/
def fxCamera : Camera := ⟨.PERSPECTIVE, 800, 600⟩

/-- A shadow-casting directional light with identity 30. -/
def fxShadowLight : DirectionalLight := ⟨30, true, ⟨.PERSPECTIVE, 1024, 1024⟩⟩

/-- A scene with a shadow-receiving entity (id 11) followed by a
non-receiving entity (id 12), and one shadow-casting directional light. -/
def fxSceneShadow : Scene := ⟨[⟨5, 11, true⟩, ⟨6, 12, false⟩], ⟨100, [], [fxShadowLight]⟩⟩

/-- A plain pass over `fxSceneShadow`. -/
def fxPassShadow : RenderPass := { scene := .caller 0, camera := .value fxCamera }

/-- A scene with one entity and no point or directional lights. -/
def fxSceneSky : Scene := ⟨[⟨5, 11, true⟩], ⟨100, [], []⟩⟩

/-- A pass over `fxSceneSky` declaring a sky box. -/
def fxPassSky : RenderPass :=
  { scene := .caller 0, camera := .value fxCamera, skyBox := some 55 }

/-- C2 (code bug): building `[fxPassShadow]` over `fxSceneShadow` yields at
queue position 8 the directional-light DRAW for entity 12 — whose
`receive_shadow` is `false` — and that command carries shadow map 1000 (the
1024×1024 target allocated for light 30) instead of an empty shadow-map
field: the shared command object is only written under the
`receive_shadow()` check, so the value set for the preceding receiving
entity leaks onto the non-receiver's command. -/
theorem stale_shadow_map_on_non_receiver :
    (buildRun 4 3 1000 [fxSceneShadow] [fxPassShadow]).1[8]?
      = some { ctype := .DRAW, renderPass := some 1, material := some 1006,
               renderEntity := some 12, light := some 30, shadowMap := some 1000 }
    ∧ (fxSceneShadow.entities[1]?).map SEntity.receiveShadow = some false
    ∧ (buildRun 4 3 1000 [fxSceneShadow] [fxPassShadow]).2.2.targets[0]?
        = some ⟨1000, 1024, 1024⟩ := by
  exact ⟨rfl, rfl, rfl⟩

/-- C8 as stated is false: a pass declaring a sky box mutates the
caller-owned scene it references (a sky-box render graph and entity are
created in it during encoding), so the scenes are not left unchanged. -/
theorem build_mutates_inputs_cex :
    (buildRun 4 3 1000 [fxSceneSky] [fxPassSky]).2.2.scenes ≠ [fxSceneSky] := by
  decide

/-!
## Mutating the back of a deque
-/

theorem setLastColourTarget_append (t : Option Nat) (xs : List RenderPass) (p : RenderPass) :
    setLastColourTarget t (xs ++ [p]) = xs ++ [{ p with colourTarget := t }] := by
  induction xs with
  | nil => rfl
  | cons q xs ih =>
      cases xs with
      | nil => rfl
      | cons r xs => simpa [setLastColourTarget] using ih

theorem setLastArenaCamera_append (c : Camera) (xs : List PassData) (pd : PassData) :
    setLastArenaCamera c (xs ++ [pd]) = xs ++ [{ pd with pcamera := c }] := by
  induction xs with
  | nil => rfl
  | cons q xs ih =>
      cases xs with
      | nil => rfl
      | cons r xs => simpa [setLastArenaCamera] using ih

theorem setLastColourTarget_append₂ (t : Option Nat) (xs : List RenderPass)
    (a b : RenderPass) :
    setLastColourTarget t (xs ++ [a, b]) = xs ++ [a, { b with colourTarget := t }] := by
  simpa using setLastColourTarget_append t (xs ++ [a]) b

theorem setLastColourTarget_append_left (t : Option Nat) (A xs : List RenderPass)
    (h : xs ≠ []) :
    setLastColourTarget t (A ++ xs) = A ++ setLastColourTarget t xs := by
  induction A with
  | nil => rfl
  | cons a A ih =>
      obtain ⟨y, ys, hy⟩ : ∃ y ys, A ++ xs = y :: ys := by
        cases hxx : A ++ xs with
        | nil => exact absurd (List.append_eq_nil.mp hxx).2 h
        | cons y ys => exact ⟨y, ys, rfl⟩
      calc setLastColourTarget t ((a :: A) ++ xs)
          = setLastColourTarget t (a :: (A ++ xs)) := rfl
        _ = a :: setLastColourTarget t (A ++ xs) := by rw [hy]; rfl
        _ = a :: (A ++ setLastColourTarget t xs) := by rw [ih]
        _ = (a :: A) ++ setLastColourTarget t xs := rfl

/-- The state component of `add_pass`: four fresh ids (the arena scene's
ambient light, the stage target, the stage render graph, the full-screen
sprite entity) plus the recorded target, graph and arena slot. -/
def addPassState (s : BuilderState) (g : Nat → RGNode) : BuilderState :=
  { s with
    nextId := s.nextId + 4
    targets := s.targets ++ [⟨s.nextId + 1, s.bwidth, s.bheight⟩]
    graphs := s.graphs ++ [(s.nextId + 2, g (s.nextId + 1))]
    passData := s.passData
      ++ [⟨⟨[⟨s.nextId + 2, s.nextId + 3, true⟩], ⟨s.nextId, [], []⟩⟩,
          ⟨.ORTHOGRAPHIC, s.bwidth, s.bheight⟩⟩] }

theorem addPass_eq (s : BuilderState) (xs : List RenderPass) (q : RenderPass)
    (g : Nat → RGNode) :
    addPass s (xs ++ [q]) g
      = (s.nextId + 1,
         xs ++ [{ q with colourTarget := some (s.nextId + 1) }, stagePass s.passData.length],
         addPassState s g) := by
  simp [addPass, freshId, createRenderTarget, addPassState, setLastColourTarget_append]

theorem derefCamera_eq {s' s : BuilderState} (h : s'.passData = s.passData) (c : CameraPtr) :
    derefCamera s' c = derefCamera s c := by
  cases c <;> simp [derefCamera, h]

/-- Closed form for the SSAO injector on a pass that requests ambient
occlusion. -/
theorem injectAO_eq (p : RenderPass) (pre : List RenderPass) (s : BuilderState)
    (ssao : Nat) (hao : p.postProcessingDescription.ambientOcclusion = some ssao) :
    injectAO p pre s
      = ({ p with
           colourTarget := some (s.nextId + 6)
           clearColour := false
           clearDepth := false },
         pre ++ [{ mkAoDataPass p s.nextId (s.nextId + 1) with colourTarget := some (s.nextId + 3) },
                 { stagePass s.passData.length with colourTarget := p.colourTarget }],
         { s with
           nextId := s.nextId + 7
           targets := s.targets
             ++ [⟨s.nextId, s.bwidth, s.bheight⟩, ⟨s.nextId + 1, s.bwidth, s.bheight⟩,
                 ⟨s.nextId + 3, s.bwidth, s.bheight⟩]
           hybrids := s.hybrids ++ [⟨s.nextId + 6, p.colourTarget, some (s.nextId + 3)⟩]
           graphs := s.graphs
             ++ [(s.nextId + 4,
                  .ambientOcclusionNode (.texture (s.nextId + 3)) (.texture s.nextId)
                    (.texture (s.nextId + 1)) ssao)]
           passData := s.passData
             ++ [⟨⟨[⟨s.nextId + 4, s.nextId + 5, true⟩], ⟨s.nextId + 2, [], []⟩⟩,
                 derefCamera s p.camera⟩] }) := by
  have hd : derefCamera
      { s with
        nextId := s.nextId + 2
        targets := s.targets
          ++ [⟨s.nextId, s.bwidth, s.bheight⟩, ⟨s.nextId + 1, s.bwidth, s.bheight⟩] }
      p.camera = derefCamera s p.camera := derefCamera_eq rfl _
  simp [injectAO, hao, createRenderTarget, createHybridRenderTarget, addPass_eq,
    addPassState, mkAoDataPass, setLastColourTarget_append, setLastColourTarget_append₂,
    setLastArenaCamera_append, stagePass, hd, Nat.add_assoc]

/-- C6: injecting ambient occlusion for a pass appends to the pre-process
list, in order, the AO data pass and the SSAO compute pass built by
`add_pass`.  The data pass as synthesized keeps the original camera, has no
colour target, carries two freshly allocated full-screen normal/position
targets and is depth-only (`add_pass` then rewires its colour target to the
AO stage target it allocates).  The compute pass's arena camera slot is
overwritten with the original pass's camera value, so dereferencing its
camera in the resulting state yields the original (perspective) camera, not
the orthographic one `add_pass` created; its colour target is the original
pass's.  The original pass's colour target becomes a hybrid target fusing
its previous colour target with the AO stage target, its clear flags are
disabled, and it keeps its own camera. -/
theorem ao_injection_spec (p : RenderPass) (pre : List RenderPass) (s : BuilderState)
    (ssao : Nat) (hao : p.postProcessingDescription.ambientOcclusion = some ssao) :
    injectAO p pre s
      = ({ p with
           colourTarget := some (s.nextId + 6)
           clearColour := false
           clearDepth := false },
         pre ++ [{ mkAoDataPass p s.nextId (s.nextId + 1) with colourTarget := some (s.nextId + 3) },
                 { stagePass s.passData.length with colourTarget := p.colourTarget }],
         { s with
           nextId := s.nextId + 7
           targets := s.targets
             ++ [⟨s.nextId, s.bwidth, s.bheight⟩, ⟨s.nextId + 1, s.bwidth, s.bheight⟩,
                 ⟨s.nextId + 3, s.bwidth, s.bheight⟩]
           hybrids := s.hybrids ++ [⟨s.nextId + 6, p.colourTarget, some (s.nextId + 3)⟩]
           graphs := s.graphs
             ++ [(s.nextId + 4,
                  .ambientOcclusionNode (.texture (s.nextId + 3)) (.texture s.nextId)
                    (.texture (s.nextId + 1)) ssao)]
           passData := s.passData
             ++ [⟨⟨[⟨s.nextId + 4, s.nextId + 5, true⟩], ⟨s.nextId + 2, [], []⟩⟩,
                 derefCamera s p.camera⟩] })
    ∧ (mkAoDataPass p s.nextId (s.nextId + 1)).colourTarget = none
    ∧ (mkAoDataPass p s.nextId (s.nextId + 1)).camera = p.camera
    ∧ (mkAoDataPass p s.nextId (s.nextId + 1)).depthOnly = true
    ∧ (mkAoDataPass p s.nextId (s.nextId + 1)).normalTarget = some s.nextId
    ∧ (mkAoDataPass p s.nextId (s.nextId + 1)).positionTarget = some (s.nextId + 1)
    ∧ (injectAO p pre s).1.camera = p.camera
    ∧ derefCamera (injectAO p pre s).2.2
        ({ stagePass s.passData.length with colourTarget := p.colourTarget } : RenderPass).camera
      = derefCamera s p.camera := by
  have hmain : injectAO p pre s
      = ({ p with
           colourTarget := some (s.nextId + 6)
           clearColour := false
           clearDepth := false },
         pre ++ [{ mkAoDataPass p s.nextId (s.nextId + 1) with colourTarget := some (s.nextId + 3) },
                 { stagePass s.passData.length with colourTarget := p.colourTarget }],
         { s with
           nextId := s.nextId + 7
           targets := s.targets
             ++ [⟨s.nextId, s.bwidth, s.bheight⟩, ⟨s.nextId + 1, s.bwidth, s.bheight⟩,
                 ⟨s.nextId + 3, s.bwidth, s.bheight⟩]
           hybrids := s.hybrids ++ [⟨s.nextId + 6, p.colourTarget, some (s.nextId + 3)⟩]
           graphs := s.graphs
             ++ [(s.nextId + 4,
                  .ambientOcclusionNode (.texture (s.nextId + 3)) (.texture s.nextId)
                    (.texture (s.nextId + 1)) ssao)]
           passData := s.passData
             ++ [⟨⟨[⟨s.nextId + 4, s.nextId + 5, true⟩], ⟨s.nextId + 2, [], []⟩⟩,
                 derefCamera s p.camera⟩] }) := injectAO_eq p pre s ssao hao
  refine ⟨hmain, rfl, rfl, rfl, rfl, rfl, by rw [hmain], ?_⟩
  rw [hmain]
  show derefCamera _ (CameraPtr.arena s.passData.length) = _
  simp [derefCamera, List.getElem?_concat_length]

/-!
## Closed forms for the shadow injector
-/

/-- The synthetic shadow passes the injector appends for one input pass:
one per shadow-casting directional light, in light order, with consecutive
target ids. -/
def shadowSpec (p : RenderPass) (m : Nat) : List DirectionalLight → List RenderPass
  | [] => []
  | l :: ls =>
      if l.castsShadows then mkShadowPass p l m :: shadowSpec p (m + 1) ls
      else shadowSpec p m ls

/-- The shadow-map table after recording one pass's shadow-casting
lights. -/
def shadowMapsFold (maps : ShadowMaps) (m : Nat) : List DirectionalLight → ShadowMaps
  | [] => maps
  | l :: ls =>
      if l.castsShadows then shadowMapsFold (mapInsert l.lid m maps) (m + 1) ls
      else shadowMapsFold maps m ls

/-- The 1024×1024 render targets allocated for one pass's shadow maps. -/
def shadowTargetsSpec (m : Nat) : List DirectionalLight → List TargetAlloc
  | [] => []
  | l :: ls =>
      if l.castsShadows then ⟨m, 1024, 1024⟩ :: shadowTargetsSpec (m + 1) ls
      else shadowTargetsSpec m ls

theorem injectShadows_eq (p : RenderPass) (pre : List RenderPass) (maps : ShadowMaps)
    (s : BuilderState) (ls : List DirectionalLight) :
    injectShadows p pre maps s ls
      = (pre ++ shadowSpec p s.nextId ls,
         shadowMapsFold maps s.nextId ls,
         { s with
           nextId := s.nextId + (ls.filter (fun l => l.castsShadows)).length
           targets := s.targets ++ shadowTargetsSpec s.nextId ls }) := by
  induction ls generalizing pre maps s with
  | nil => simp [injectShadows, shadowSpec, shadowMapsFold, shadowTargetsSpec]
  | cons l ls ih =>
      by_cases h : l.castsShadows
      · simp [injectShadows, h, createRenderTarget, ih, shadowSpec, shadowMapsFold,
          shadowTargetsSpec, List.filter_cons, Nat.add_comm, Nat.add_assoc, Nat.add_left_comm]
      · simp [injectShadows, h, ih, shadowSpec, shadowMapsFold, shadowTargetsSpec,
          List.filter_cons]

theorem shadowSpec_get (p : RenderPass) (m k : Nat) (ls : List DirectionalLight) :
    (shadowSpec p m ls)[k]?
      = ((ls.filter (fun l => l.castsShadows))[k]?).map (fun l => mkShadowPass p l (m + k)) := by
  induction ls generalizing m k with
  | nil => simp [shadowSpec]
  | cons l ls ih =>
      by_cases h : l.castsShadows
      · cases k with
        | zero => simp [shadowSpec, h, List.filter_cons]
        | succ k =>
            simp only [shadowSpec, h, if_true, List.filter_cons, List.getElem?_cons_succ]
            rw [ih]
            simp [Nat.add_comm, Nat.add_assoc, Nat.add_left_comm]
      · simp [shadowSpec, h, List.filter_cons, ih]

theorem shadowTargetsSpec_get (m k : Nat) (ls : List DirectionalLight) :
    (shadowTargetsSpec m ls)[k]?
      = ((ls.filter (fun l => l.castsShadows))[k]?).map
          (fun _ => (⟨m + k, 1024, 1024⟩ : TargetAlloc)) := by
  induction ls generalizing m k with
  | nil => simp [shadowTargetsSpec]
  | cons l ls ih =>
      by_cases h : l.castsShadows
      · cases k with
        | zero => simp [shadowTargetsSpec, h, List.filter_cons]
        | succ k =>
            simp only [shadowTargetsSpec, h, if_true, List.filter_cons, List.getElem?_cons_succ]
            rw [ih]
            simp [Nat.add_comm, Nat.add_assoc, Nat.add_left_comm]
      · simp [shadowTargetsSpec, h, List.filter_cons, ih]

theorem mapLookup_insert_self (k v : Nat) (maps : ShadowMaps) :
    mapLookup k (mapInsert k v maps) = some v := by
  induction maps with
  | nil => simp [mapInsert, mapLookup]
  | cons kv maps ih =>
      by_cases h : kv.1 = k <;> simp [mapInsert, mapLookup, h, ih]

theorem mapLookup_insert_ne (k k' v : Nat) (maps : ShadowMaps) (h : k' ≠ k) :
    mapLookup k' (mapInsert k v maps) = mapLookup k' maps := by
  induction maps with
  | nil => simp [mapInsert, mapLookup, Ne.symm h]
  | cons kv maps ih =>
      obtain ⟨k1, v1⟩ := kv
      by_cases h2 : k1 = k
      · subst h2
        simp [mapInsert, mapLookup, Ne.symm h]
      · simp [mapInsert, mapLookup, h2, ih]

theorem shadowMapsFold_lookup_of_not_mem (maps : ShadowMaps) (m lid : Nat)
    (ls : List DirectionalLight) (h : ∀ l ∈ ls, l.castsShadows → l.lid ≠ lid) :
    mapLookup lid (shadowMapsFold maps m ls) = mapLookup lid maps := by
  induction ls generalizing maps m with
  | nil => rfl
  | cons l ls ih =>
      by_cases hc : l.castsShadows
      · rw [shadowMapsFold, if_pos hc,
          ih _ _ (fun l' hl' => h l' (List.mem_cons_of_mem _ hl'))]
        exact mapLookup_insert_ne _ _ _ _ (Ne.symm (h l (List.mem_cons_self _ _) hc))
      · rw [shadowMapsFold, if_neg hc]
        exact ih _ _ (fun l' hl' => h l' (List.mem_cons_of_mem _ hl'))

theorem shadowMapsFold_lookup (maps : ShadowMaps) (m k : Nat) (ls : List DirectionalLight)
    (l : DirectionalLight)
    (hk : (ls.filter (fun l => l.castsShadows))[k]? = some l)
    (hnd : ((ls.filter (fun l => l.castsShadows)).map (fun l => l.lid)).Nodup) :
    mapLookup l.lid (shadowMapsFold maps m ls) = some (m + k) := by
  induction ls generalizing maps m k with
  | nil => simp [List.filter_nil] at hk
  | cons l0 ls ih =>
      by_cases hc : l0.castsShadows
      · rw [List.filter_cons_of_pos (by simpa using hc)] at hk hnd
        rw [List.map_cons, List.nodup_cons] at hnd
        cases k with
        | zero =>
            rw [List.getElem?_cons_zero, Option.some_inj] at hk
            rw [← hk]
            rw [shadowMapsFold, if_pos hc]
            have hmem : ∀ l' ∈ ls, l'.castsShadows → l'.lid ≠ l0.lid := by
              intro l' hl' hc' heq
              exact hnd.1 (heq ▸ List.mem_map_of_mem (fun l => l.lid)
                (List.mem_filter.mpr ⟨hl', by simpa using hc'⟩))
            rw [shadowMapsFold_lookup_of_not_mem _ _ _ _ hmem]
            simpa using mapLookup_insert_self l0.lid m maps
        | succ k =>
            rw [List.getElem?_cons_succ] at hk
            rw [shadowMapsFold, if_pos hc]
            have := ih (mapInsert l0.lid m maps) (m + 1) k hk hnd.2
            rw [this]
            simp [Nat.add_comm, Nat.add_assoc, Nat.add_left_comm]
      · rw [List.filter_cons_of_neg (by simpa using hc)] at hk hnd
        rw [shadowMapsFold, if_neg hc]
        exact ih maps m k hk hnd

/-!
## The expander ignores any prefix of already-expanded passes
-/

theorem addPass_acc (s : BuilderState) (A xs : List RenderPass) (g : Nat → RGNode)
    (h : xs ≠ []) :
    addPass s (A ++ xs) g
      = ((addPass s xs g).1, A ++ (addPass s xs g).2.1, (addPass s xs g).2.2) := by
  simp [addPass, freshId, createRenderTarget, setLastColourTarget_append_left _ _ _ h,
    List.append_assoc]

theorem addPass_ne_nil (s : BuilderState) (xs : List RenderPass) (g : Nat → RGNode) :
    (addPass s xs g).2.1 ≠ [] := by
  simp [addPass]

theorem bloomBlurLoop_acc (A xs : List RenderPass) (s : BuilderState) (n : Nat)
    (h : xs ≠ []) :
    bloomBlurLoop (A ++ xs) s n
      = (A ++ (bloomBlurLoop xs s n).1, (bloomBlurLoop xs s n).2) := by
  induction n generalizing A xs s with
  | zero => simp [bloomBlurLoop]
  | succ n ih =>
      simp only [bloomBlurLoop]
      rw [addPass_acc _ _ _ _ h]
      exact ih _ _ _ (addPass_ne_nil _ _ _)

theorem bloomBlurLoop_ne_nil (xs : List RenderPass) (s : BuilderState) (n : Nat)
    (h : xs ≠ []) : (bloomBlurLoop xs s n).1 ≠ [] := by
  induction n generalizing xs s with
  | zero => simpa [bloomBlurLoop] using h
  | succ n ih =>
      simp only [bloomBlurLoop]
      apply ih
      intro hnil
      simp [addPass] at hnil

theorem expandBloom_acc (b : Bloom) (A xs : List RenderPass) (s : BuilderState)
    (h : xs ≠ []) :
    expandBloom b (A ++ xs) s = (A ++ (expandBloom b xs s).1, (expandBloom b xs s).2) := by
  simp only [expandBloom]
  rw [addPass_acc _ _ _ _ h]
  simp only
  rw [addPass_acc _ _ _ _ (addPass_ne_nil _ _ _)]
  simp only
  rw [bloomBlurLoop_acc _ _ _ _ (addPass_ne_nil _ _ _)]
  simp only
  rw [addPass_acc _ _ _ _ (bloomBlurLoop_ne_nil _ _ _ (addPass_ne_nil _ _ _))]

theorem expandBloom_ne_nil (b : Bloom) (xs : List RenderPass) (s : BuilderState) :
    (expandBloom b xs s).1 ≠ [] := by
  intro hnil
  simp only [expandBloom] at hnil
  simp [addPass] at hnil

theorem expandOnePass_acc (p : RenderPass) (A B : List RenderPass) (s : BuilderState) :
    expandOnePass p (A ++ B) s
      = (A ++ (expandOnePass p B s).1, (expandOnePass p B s).2) := by
  simp only [expandOnePass]
  rw [List.append_assoc]
  have h0 : B ++ [p] ≠ [] := by simp
  cases hb : p.postProcessingDescription.bloom with
  | none =>
      cases hca : p.postProcessingDescription.colourAdjust with
      | none =>
          cases haa : p.postProcessingDescription.antiAliasing
          · simp only [hb, hca, haa, Bool.false_eq_true, if_false]
            rw [setLastColourTarget_append_left _ _ _ h0]
          · simp only [hb, hca, haa, if_true]
            rw [addPass_acc _ _ _ _ h0]
            simp only
            rw [setLastColourTarget_append_left _ _ _ (addPass_ne_nil _ _ _)]
      | some ca =>
          simp only [hb, hca]
          rw [addPass_acc _ _ _ _ h0]
          simp only
          cases haa : p.postProcessingDescription.antiAliasing
          · simp only [haa, Bool.false_eq_true, if_false]
            rw [setLastColourTarget_append_left _ _ _ (addPass_ne_nil _ _ _)]
          · simp only [haa, if_true]
            rw [addPass_acc _ _ _ _ (addPass_ne_nil _ _ _)]
            simp only
            rw [setLastColourTarget_append_left _ _ _ (addPass_ne_nil _ _ _)]
  | some b =>
      simp only [hb]
      rw [expandBloom_acc _ _ _ _ h0]
      simp only
      cases hca : p.postProcessingDescription.colourAdjust with
      | none =>
          cases haa : p.postProcessingDescription.antiAliasing
          · simp only [hca, haa, Bool.false_eq_true, if_false]
            rw [setLastColourTarget_append_left _ _ _ (expandBloom_ne_nil _ _ _)]
          · simp only [hca, haa, if_true]
            rw [addPass_acc _ _ _ _ (expandBloom_ne_nil _ _ _)]
            simp only
            rw [setLastColourTarget_append_left _ _ _ (addPass_ne_nil _ _ _)]
      | some ca =>
          simp only [hca]
          rw [addPass_acc _ _ _ _ (expandBloom_ne_nil _ _ _)]
          simp only
          cases haa : p.postProcessingDescription.antiAliasing
          · simp only [haa, Bool.false_eq_true, if_false]
            rw [setLastColourTarget_append_left _ _ _ (addPass_ne_nil _ _ _)]
          · simp only [haa, if_true]
            rw [addPass_acc _ _ _ _ (addPass_ne_nil _ _ _)]
            simp only
            rw [setLastColourTarget_append_left _ _ _ (addPass_ne_nil _ _ _)]

theorem addPostProcessingPasses_acc (acc : List RenderPass) (s : BuilderState)
    (ps : List RenderPass) :
    addPostProcessingPasses acc s ps
      = (acc ++ (addPostProcessingPasses [] s ps).1, (addPostProcessingPasses [] s ps).2) := by
  induction ps generalizing acc s with
  | nil => simp [addPostProcessingPasses]
  | cons p ps ih =>
      simp only [addPostProcessingPasses]
      have h1 : expandOnePass p acc s = (acc ++ (expandOnePass p [] s).1, (expandOnePass p [] s).2) := by
        simpa using expandOnePass_acc p acc [] s
      have h2 : expandOnePass p [] s
          = ((expandOnePass p [] s).1, (expandOnePass p [] s).2) := rfl
      rw [h1, h2]
      simp only
      rw [ih ((expandOnePass p [] s).1) ((expandOnePass p [] s).2),
        ih (acc ++ (expandOnePass p [] s).1) ((expandOnePass p [] s).2)]
      simp [List.append_assoc]

theorem expandOnePass_empty (p : RenderPass) (acc : List RenderPass) (s : BuilderState)
    (h : p.postProcessingDescription = {}) :
    expandOnePass p acc s = (acc ++ [p], s) := by
  simp only [expandOnePass, h]
  simp [setLastColourTarget_append]

theorem addPostProcessingPasses_emptyPre (pre ps acc : List RenderPass) (s : BuilderState)
    (h : ∀ q ∈ pre, q.postProcessingDescription = {}) :
    addPostProcessingPasses acc s (pre ++ ps) = addPostProcessingPasses (acc ++ pre) s ps := by
  induction pre generalizing acc with
  | nil => simp
  | cons q pre ih =>
      have hstep : addPostProcessingPasses acc s ((q :: pre) ++ ps)
          = addPostProcessingPasses (acc ++ [q]) s (pre ++ ps) := by
        show addPostProcessingPasses acc s (q :: (pre ++ ps)) = _
        simp only [addPostProcessingPasses]
        rw [expandOnePass_empty q acc s (h q (List.mem_cons_self _ _))]
      rw [hstep, ih _ (fun q' hq' => h q' (List.mem_cons_of_mem _ hq'))]
      simp [List.append_assoc]

/-!
## Every pre-process pass has an empty post-processing description
-/

theorem shadowSpec_ppd (p : RenderPass) (m : Nat) (ls : List DirectionalLight) :
    ∀ q ∈ shadowSpec p m ls, q.postProcessingDescription = {} := by
  induction ls generalizing m with
  | nil => simp [shadowSpec]
  | cons l ls ih =>
      intro q hq
      by_cases h : l.castsShadows
      · rw [shadowSpec, if_pos h] at hq
        rcases List.mem_cons.mp hq with h2 | h2
        · subst h2; rfl
        · exact ih _ q h2
      · rw [shadowSpec, if_neg h] at hq
        exact ih _ q hq

theorem injectAO_ppd (p : RenderPass) (pre : List RenderPass) (s : BuilderState)
    (h : ∀ q ∈ pre, q.postProcessingDescription = {}) :
    ∀ q ∈ (injectAO p pre s).2.1, q.postProcessingDescription = {} := by
  cases hao : p.postProcessingDescription.ambientOcclusion with
  | none => simpa [injectAO, hao] using h
  | some ssao =>
      rw [injectAO_eq p pre s ssao hao]
      intro q hq
      simp only [List.mem_append] at hq
      rcases hq with h2 | h2
      · exact h q h2
      · rcases List.mem_cons.mp h2 with h3 | h3
        · subst h3; rfl
        · rw [List.mem_singleton] at h3; subst h3; rfl

theorem injectPass_ppd (p : RenderPass) (pre : List RenderPass) (maps : ShadowMaps)
    (s : BuilderState) (h : ∀ q ∈ pre, q.postProcessingDescription = {}) :
    ∀ q ∈ (injectPass p pre maps s).2.1, q.postProcessingDescription = {} := by
  show ∀ q ∈ (injectAO p
      (injectShadows p pre maps s (lookupScene s p.scene).rig.directionalLights).1
      (injectShadows p pre maps s (lookupScene s p.scene).rig.directionalLights).2.2).2.1, _
  apply injectAO_ppd
  rw [injectShadows_eq]
  intro q hq
  simp only [List.mem_append] at hq
  rcases hq with h2 | h2
  · exact h q h2
  · exact shadowSpec_ppd p _ _ q h2

theorem injectAll_ppd (ps pre : List RenderPass) (maps : ShadowMaps) (s : BuilderState)
    (h : ∀ q ∈ pre, q.postProcessingDescription = {}) :
    ∀ q ∈ (injectAll pre maps s ps).2.1, q.postProcessingDescription = {} := by
  induction ps generalizing pre maps s with
  | nil => simpa [injectAll] using h
  | cons p ps ih =>
      simp only [injectAll]
      exact ih _ _ _ (injectPass_ppd p pre maps s h)

/-- C5: (a) the injector's shadow loop for one input pass appends exactly
the synthetic shadow passes (one per shadow-casting directional light of
the pass's scene, in light order), records each light→target association
in the shadow-map table, and allocates one render target per casting
light; (b) the k-th casting light yields exactly the k-th appended shadow
pass, built from the k-th freshly allocated target; (c) the synthetic pass
is the input pass with post-processing emptied, camera pointed at the
light's shadow camera, colour target replaced by the fresh target,
normal/position targets cleared, depth-only set, and colour+depth clears
forced; (d) each allocated shadow target is 1024×1024; (e) when the
casting lights' identities are distinct, the table maps the k-th casting
light to its own target; (f) in the final pass list produced by `build`,
every synthesized pre-process pass precedes every (expanded) original
input pass. -/
theorem shadow_injection_spec :
    (∀ (p : RenderPass) (pre : List RenderPass) (maps : ShadowMaps) (s : BuilderState)
        (ls : List DirectionalLight),
      injectShadows p pre maps s ls
        = (pre ++ shadowSpec p s.nextId ls,
           shadowMapsFold maps s.nextId ls,
           { s with
             nextId := s.nextId + (ls.filter (fun l => l.castsShadows)).length
             targets := s.targets ++ shadowTargetsSpec s.nextId ls }))
    ∧ (∀ (p : RenderPass) (m k : Nat) (ls : List DirectionalLight),
        (shadowSpec p m ls)[k]?
          = ((ls.filter (fun l => l.castsShadows))[k]?).map (fun l => mkShadowPass p l (m + k)))
    ∧ (∀ (p : RenderPass) (l : DirectionalLight) (rt : Nat),
        (mkShadowPass p l rt).postProcessingDescription = {}
        ∧ (mkShadowPass p l rt).camera = .value l.shadowCamera
        ∧ (mkShadowPass p l rt).colourTarget = some rt
        ∧ (mkShadowPass p l rt).normalTarget = none
        ∧ (mkShadowPass p l rt).positionTarget = none
        ∧ (mkShadowPass p l rt).depthOnly = true
        ∧ (mkShadowPass p l rt).clearColour = true
        ∧ (mkShadowPass p l rt).clearDepth = true
        ∧ (mkShadowPass p l rt).scene = p.scene)
    ∧ (∀ (m k : Nat) (ls : List DirectionalLight),
        (shadowTargetsSpec m ls)[k]?
          = ((ls.filter (fun l => l.castsShadows))[k]?).map
              (fun _ => (⟨m + k, 1024, 1024⟩ : TargetAlloc)))
    ∧ (∀ (maps : ShadowMaps) (m k : Nat) (ls : List DirectionalLight) (l : DirectionalLight),
        (ls.filter (fun l => l.castsShadows))[k]? = some l
        → ((ls.filter (fun l => l.castsShadows)).map (fun l => l.lid)).Nodup
        → mapLookup l.lid (shadowMapsFold maps m ls) = some (m + k))
    ∧ (∀ (s0 : BuilderState) (passes : List RenderPass),
        (addPostProcessingPasses [] (injectAll [] [] s0 passes).2.2.2
            ((injectAll [] [] s0 passes).2.1 ++ (injectAll [] [] s0 passes).1)).1
          = (injectAll [] [] s0 passes).2.1
            ++ (addPostProcessingPasses [] (injectAll [] [] s0 passes).2.2.2
                  (injectAll [] [] s0 passes).1).1) := by
  refine ⟨injectShadows_eq, shadowSpec_get, ?_, shadowTargetsSpec_get, shadowMapsFold_lookup, ?_⟩
  · intro p l rt
    exact ⟨rfl, rfl, rfl, rfl, rfl, rfl, rfl, rfl, rfl⟩
  · intro s0 passes
    rw [addPostProcessingPasses_emptyPre _ _ _ _
      (injectAll_ppd passes [] [] s0 (by simp))]
    simp only [List.nil_append]
    rw [addPostProcessingPasses_acc]

/-!
## Closed forms for the bloom expansion
-/

/-- The passes of the blur loop's region, starting from the pass `q` whose
colour target the first iteration assigns. -/
def blurChain (q : RenderPass) (m L : Nat) : Nat → List RenderPass
  | 0 => [q]
  | n + 1 =>
      { q with colourTarget := some (m + 1) } :: blurChain (stagePass L) (m + 4) (L + 1) n

/-- `blurChain` without its final (target-unassigned) pass. -/
def blurChainInit (q : RenderPass) (m L : Nat) : Nat → List RenderPass
  | 0 => []
  | n + 1 =>
      { q with colourTarget := some (m + 1) } :: blurChainInit (stagePass L) (m + 4) (L + 1) n

/-- The final (target-unassigned) pass of `blurChain`. -/
def blurChainLast (q : RenderPass) (L : Nat) : Nat → RenderPass
  | 0 => q
  | n + 1 => stagePass (L + n)

/-- The full-screen targets the blur loop allocates. -/
def blurTargetsSpec (m w h : Nat) : Nat → List TargetAlloc
  | 0 => []
  | n + 1 => ⟨m + 1, w, h⟩ :: blurTargetsSpec (m + 4) w h n

/-- The blur render graphs, each sampling the target its `add_pass`
allocated (the preceding stage's colour target). -/
def blurGraphsSpec (m : Nat) : Nat → List (Nat × RGNode)
  | 0 => []
  | n + 1 => (m + 2, .colourInput (.blur (.texture (m + 1)))) :: blurGraphsSpec (m + 4) n

/-- The arena slots the blur loop pushes. -/
def blurArenaSpec (m w h : Nat) : Nat → List PassData
  | 0 => []
  | n + 1 =>
      ⟨⟨[⟨m + 2, m + 3, true⟩], ⟨m, [], []⟩⟩, ⟨.ORTHOGRAPHIC, w, h⟩⟩
        :: blurArenaSpec (m + 4) w h n

theorem bloomBlurLoop_eq (X : List RenderPass) (q : RenderPass) (s : BuilderState) (n : Nat) :
    bloomBlurLoop (X ++ [q]) s n
      = (X ++ blurChain q s.nextId s.passData.length n,
         { s with
           nextId := s.nextId + 4 * n
           targets := s.targets ++ blurTargetsSpec s.nextId s.bwidth s.bheight n
           graphs := s.graphs ++ blurGraphsSpec s.nextId n
           passData := s.passData ++ blurArenaSpec s.nextId s.bwidth s.bheight n }) := by
  induction n generalizing X q s with
  | zero => simp [bloomBlurLoop, blurChain, blurTargetsSpec, blurGraphsSpec, blurArenaSpec]
  | succ n ih =>
      simp only [bloomBlurLoop]
      rw [addPass_eq]
      simp only
      rw [show X ++ [{ q with colourTarget := some (s.nextId + 1) }, stagePass s.passData.length]
          = (X ++ [{ q with colourTarget := some (s.nextId + 1) }]) ++ [stagePass s.passData.length]
        by simp]
      rw [ih]
      simp [addPassState, blurChain, blurTargetsSpec, blurGraphsSpec, blurArenaSpec,
        List.append_assoc, Nat.mul_succ, Nat.add_assoc, Nat.add_comm, Nat.add_left_comm]

theorem blurChainLast_shift (q : RenderPass) (L n : Nat) :
    blurChainLast (stagePass L) (L + 1) n = blurChainLast q L (n + 1) := by
  cases n with
  | zero => simp [blurChainLast]
  | succ k => simp [blurChainLast, Nat.add_assoc, Nat.add_comm, Nat.add_left_comm]

theorem blurChain_split (q : RenderPass) (m L n : Nat) :
    blurChain q m L n = blurChainInit q m L n ++ [blurChainLast q L n] := by
  induction n generalizing q m L with
  | zero => rfl
  | succ n ih =>
      simp only [blurChain, blurChainInit, ih, List.cons_append]
      rw [blurChainLast_shift q L n]

theorem blurChainLast_stage (j n : Nat) :
    blurChainLast (stagePass j) (j + 1) n = stagePass (j + n) := by
  cases n with
  | zero => simp [blurChainLast]
  | succ k => simp [blurChainLast, Nat.add_assoc, Nat.add_comm, Nat.add_left_comm]

theorem blurChainInit_length (q : RenderPass) (m L n : Nat) :
    (blurChainInit q m L n).length = n := by
  induction n generalizing q m L with
  | zero => rfl
  | succ n ih => simp [blurChainInit, ih]

theorem blurChainInit_get (j m L k : Nat) (n : Nat) (hL : L = j + 1) :
    (blurChainInit (stagePass j) m L n)[k]?
      = if k < n then some { stagePass (j + k) with colourTarget := some (m + 4 * k + 1) }
        else none := by
  subst hL
  induction n generalizing j m k with
  | zero => simp [blurChainInit]
  | succ n ih =>
      cases k with
      | zero => simp [blurChainInit]
      | succ k =>
          simp only [blurChainInit, List.getElem?_cons_succ]
          rw [ih (j + 1) (m + 4) k]
          by_cases hk : k < n
          · simp [hk, Nat.add_assoc, Nat.add_comm, Nat.add_left_comm, Nat.mul_succ,
              Nat.succ_lt_succ hk]
          · simp [hk, fun h => hk (Nat.lt_of_succ_lt_succ h)]

theorem blurGraphsSpec_get (m k n : Nat) :
    (blurGraphsSpec m n)[k]?
      = if k < n then some (m + 4 * k + 2, .colourInput (.blur (.texture (m + 4 * k + 1))))
        else none := by
  induction n generalizing m k with
  | zero => simp [blurGraphsSpec]
  | succ n ih =>
      cases k with
      | zero => simp [blurGraphsSpec]
      | succ k =>
          simp only [blurGraphsSpec, List.getElem?_cons_succ]
          rw [ih (m + 4) k]
          by_cases hk : k < n
          · simp [hk, Nat.add_assoc, Nat.add_comm, Nat.add_left_comm, Nat.mul_succ,
              Nat.succ_lt_succ hk]
          · simp [hk, fun h => hk (Nat.lt_of_succ_lt_succ h)]

/-- `A ++ [a, b] = (A ++ [a]) ++ [b]`. -/
theorem append_pair_assoc {α : Type _} (A : List α) (a b : α) :
    A ++ [a, b] = (A ++ [a]) ++ [b] := by simp

/-- `A ++ (B ++ [c]) = (A ++ B) ++ [c]`. -/
theorem append_snoc_assoc {α : Type _} (A B : List α) (c : α) :
    A ++ (B ++ [c]) = (A ++ B) ++ [c] := by simp

theorem blurArenaSpec_length (m w h n : Nat) : (blurArenaSpec m w h n).length = n := by
  induction n generalizing m with
  | zero => rfl
  | succ n ih => simp [blurArenaSpec, ih]

/-- The `iterations + 3` bloom stage passes appended after one pass: the
pass-through stage (rendering into the threshold stage's input), the
threshold stage and the blur stages (`blurChainInit`, whose element `k` is
the stage writing into target `m + 9 + 4k`), the last blur stage (written
by the composite's `add_pass`), and the composite stage, whose own colour
target is assigned by later effect stages or by the final rewrite. -/
def bloomStagePasses (m L n : Nat) : List RenderPass :=
  { stagePass L with colourTarget := some (m + 5) }
    :: (blurChainInit (stagePass (L + 1)) (m + 8) (L + 2) n
        ++ [{ blurChainLast (stagePass (L + 1)) (L + 2) n with
              colourTarget := some (m + 9 + 4 * n) },
            stagePass (L + 2 + n)])

/-- The render graphs the bloom branch creates, in stage order:
pass-through, threshold extraction (luminance dot-product against the
perceptual weights, compared with the configured threshold, selecting the
source colour else black), `n` blurs, additive composite. -/
def bloomGraphsSpec (m : Nat) (thr : Rat) (n : Nat) : List (Nat × RGNode) :=
  (m + 2, .colourInput (.texture (m + 1)))
    :: (m + 6, .colourInput (.conditional
        (.arithmetic (.texture (m + 5)) (.valueColour bloomWeights) .DOT)
        (.valueFloat thr) (.texture (m + 5)) (.valueColour bloomBlack) .GREATER))
    :: (blurGraphsSpec (m + 8) n
        ++ [(m + 10 + 4 * n,
             .colourInput (.arithmetic (.texture (m + 1)) (.texture (m + 9 + 4 * n)) .ADD))])

/-- The render targets the bloom branch allocates. -/
def bloomTargetsSpec (m w h n : Nat) : List TargetAlloc :=
  ⟨m + 1, w, h⟩ :: ⟨m + 5, w, h⟩
    :: (blurTargetsSpec (m + 8) w h n ++ [⟨m + 9 + 4 * n, w, h⟩])

/-- The arena slots the bloom branch pushes. -/
def bloomArenaSpec (m w h n : Nat) : List PassData :=
  ⟨⟨[⟨m + 2, m + 3, true⟩], ⟨m, [], []⟩⟩, ⟨.ORTHOGRAPHIC, w, h⟩⟩
    :: ⟨⟨[⟨m + 6, m + 7, true⟩], ⟨m + 4, [], []⟩⟩, ⟨.ORTHOGRAPHIC, w, h⟩⟩
    :: (blurArenaSpec (m + 8) w h n
        ++ [⟨⟨[⟨m + 10 + 4 * n, m + 11 + 4 * n, true⟩], ⟨m + 8 + 4 * n, [], []⟩⟩,
            ⟨.ORTHOGRAPHIC, w, h⟩⟩])

theorem expandBloom_eq (b : Bloom) (Y : List RenderPass) (q : RenderPass) (s : BuilderState) :
    expandBloom b (Y ++ [q]) s
      = (Y ++ ({ q with colourTarget := some (s.nextId + 1) }
            :: bloomStagePasses s.nextId s.passData.length b.iterations),
         { s with
           nextId := s.nextId + 12 + 4 * b.iterations
           targets := s.targets
             ++ bloomTargetsSpec s.nextId s.bwidth s.bheight b.iterations
           graphs := s.graphs ++ bloomGraphsSpec s.nextId b.threshold b.iterations
           passData := s.passData
             ++ bloomArenaSpec s.nextId s.bwidth s.bheight b.iterations }) := by
  simp only [expandBloom]
  rw [addPass_eq]
  simp only
  rw [append_pair_assoc]
  rw [addPass_eq]
  simp only
  rw [append_pair_assoc]
  rw [bloomBlurLoop_eq]
  rw [blurChain_split]
  rw [append_snoc_assoc]
  rw [addPass_eq]
  simp only [addPassState, List.length_append, List.length_cons, List.length_nil,
    blurArenaSpec_length]
  simp [bloomStagePasses, bloomGraphsSpec, bloomTargetsSpec, bloomArenaSpec,
    List.append_assoc, Nat.add_assoc, Nat.add_comm, Nat.add_left_comm, Nat.mul_comm,
    Nat.mul_succ]

/-- The bloom stage passes except the composite stage. -/
def bloomStagesFront (m L n : Nat) : List RenderPass :=
  { stagePass L with colourTarget := some (m + 5) }
    :: (blurChainInit (stagePass (L + 1)) (m + 8) (L + 2) n
        ++ [{ blurChainLast (stagePass (L + 1)) (L + 2) n with
              colourTarget := some (m + 9 + 4 * n) }])

/-- The bloom stage passes with the composite stage's colour target
resolved (it is assigned by the following effect stage's `add_pass`, or by
the final rewrite to the pass's original target). -/
def bloomStagesFinal (m L n : Nat) (ct : Option Nat) : List RenderPass :=
  bloomStagesFront m L n ++ [{ stagePass (L + 2 + n) with colourTarget := ct }]

theorem bloomStagePasses_split (m L n : Nat) :
    bloomStagePasses m L n = bloomStagesFront m L n ++ [stagePass (L + 2 + n)] := by
  simp [bloomStagePasses, bloomStagesFront, List.append_assoc]

theorem bloomStagesFinal_length (m L n : Nat) (ct : Option Nat) :
    (bloomStagesFinal m L n ct).length = n + 3 := by
  simp [bloomStagesFinal, bloomStagesFront, blurChainInit_length]

theorem bloomArenaSpec_length (m w h n : Nat) : (bloomArenaSpec m w h n).length = n + 3 := by
  simp [bloomArenaSpec, blurArenaSpec_length]

theorem blurGraphsSpec_length (m n : Nat) : (blurGraphsSpec m n).length = n := by
  induction n generalizing m with
  | zero => rfl
  | succ n ih => simp [blurGraphsSpec, ih]

/-- C4 (amended): for every pass with bloom configured with `iterations =
n`, the expander appends the `n + 3` bloom stage passes immediately after
the (re-targeted) original pass — in order: pass-through, threshold
extraction, `n` blurs, additive composite — followed only by the stages of
any other configured effects (`tail`, one pass per configured colour-adjust
/ anti-aliasing).  The stage graphs are created in the same order
(`bloomGraphsSpec`); each stage samples exactly the colour target of the
stage immediately preceding it, except the composite, which additionally
samples the expanded original pass's colour target (the pass-through
stage's input, `s.nextId + 1`) — not the pass-through stage's own output.
After all stages of the pass's expansion the last pass's colour target is
rewritten back to the colour target the original pass had before
expansion. -/
theorem bloom_expansion_structure (p : RenderPass) (acc : List RenderPass) (s : BuilderState)
    (thr : Rat) (n : Nat) (hb : p.postProcessingDescription.bloom = some ⟨thr, n⟩) :
    (∃ (ctComp : Option Nat) (tail : List RenderPass) (tailGraphs : List (Nat × RGNode)),
      (expandOnePass p acc s).1
        = acc ++ ({ p with colourTarget := some (s.nextId + 1) }
            :: bloomStagesFinal s.nextId s.passData.length n ctComp) ++ tail
      ∧ tail.length = (if p.postProcessingDescription.colourAdjust.isSome then 1 else 0)
          + (if p.postProcessingDescription.antiAliasing then 1 else 0)
      ∧ (tail = [] → ctComp = p.colourTarget)
      ∧ (expandOnePass p acc s).2.graphs
          = s.graphs ++ bloomGraphsSpec s.nextId thr n ++ tailGraphs
      ∧ tailGraphs.length = tail.length
      ∧ (∃ lp, ((expandOnePass p acc s).1).getLast? = some lp
          ∧ lp.colourTarget = p.colourTarget))
    ∧ (∀ ct, (bloomStagesFinal s.nextId s.passData.length n ct).length = n + 3)
    ∧ (bloomGraphsSpec s.nextId thr n)[0]?
        = some (s.nextId + 2, .colourInput (.texture (s.nextId + 1)))
    ∧ (bloomGraphsSpec s.nextId thr n)[1]?
        = some (s.nextId + 6, .colourInput (.conditional
            (.arithmetic (.texture (s.nextId + 5)) (.valueColour bloomWeights) .DOT)
            (.valueFloat thr) (.texture (s.nextId + 5)) (.valueColour bloomBlack) .GREATER))
    ∧ (∀ k, k < n → (bloomGraphsSpec s.nextId thr n)[2 + k]?
        = some (s.nextId + 10 + 4 * k, .colourInput (.blur (.texture (s.nextId + 9 + 4 * k)))))
    ∧ (∀ k, k < n → (blurChainInit (stagePass (s.passData.length + 1)) (s.nextId + 8)
          (s.passData.length + 2) n)[k]?
        = some { stagePass (s.passData.length + 1 + k) with
                 colourTarget := some (s.nextId + 9 + 4 * k) })
    ∧ (bloomGraphsSpec s.nextId thr n).getLast?
        = some (s.nextId + 10 + 4 * n,
            .colourInput (.arithmetic (.texture (s.nextId + 1))
              (.texture (s.nextId + 9 + 4 * n)) .ADD)) := by
  obtain ⟨sB, hB, hGr⟩ :
      ∃ sB, expandBloom ⟨thr, n⟩ (acc ++ [p]) s
          = (acc ++ ({ p with colourTarget := some (s.nextId + 1) }
              :: bloomStagePasses s.nextId s.passData.length n), sB)
        ∧ sB.graphs = s.graphs ++ bloomGraphsSpec s.nextId thr n :=
    ⟨_, expandBloom_eq ⟨thr, n⟩ acc p s, rfl⟩
  have hre : acc ++ ({ p with colourTarget := some (s.nextId + 1) }
        :: bloomStagePasses s.nextId s.passData.length n)
      = ((acc ++ [{ p with colourTarget := some (s.nextId + 1) }])
          ++ bloomStagesFront s.nextId s.passData.length n)
        ++ [stagePass (s.passData.length + 2 + n)] := by
    simp [bloomStagePasses_split, List.append_assoc]
  have hex : ∃ (ctComp : Option Nat) (tail : List RenderPass)
      (tailGraphs : List (Nat × RGNode)),
      (expandOnePass p acc s).1
        = acc ++ ({ p with colourTarget := some (s.nextId + 1) }
            :: bloomStagesFinal s.nextId s.passData.length n ctComp) ++ tail
      ∧ tail.length = (if p.postProcessingDescription.colourAdjust.isSome then 1 else 0)
          + (if p.postProcessingDescription.antiAliasing then 1 else 0)
      ∧ (tail = [] → ctComp = p.colourTarget)
      ∧ (expandOnePass p acc s).2.graphs
          = s.graphs ++ bloomGraphsSpec s.nextId thr n ++ tailGraphs
      ∧ tailGraphs.length = tail.length
      ∧ (∃ lp, ((expandOnePass p acc s).1).getLast? = some lp
          ∧ lp.colourTarget = p.colourTarget) := by
    cases hca : p.postProcessingDescription.colourAdjust with
    | none =>
        cases haa : p.postProcessingDescription.antiAliasing with
        | false =>
            have h1 : expandOnePass p acc s
                = (((acc ++ [{ p with colourTarget := some (s.nextId + 1) }])
                      ++ bloomStagesFront s.nextId s.passData.length n)
                    ++ [{ stagePass (s.passData.length + 2 + n) with
                          colourTarget := p.colourTarget }], sB) := by
              simp only [expandOnePass, hb, hca, haa, Bool.false_eq_true, ite_false,
                eq_self_iff_true, ite_true]
              rw [hB]
              simp only
              rw [hre, setLastColourTarget_append]
            refine ⟨p.colourTarget, [], [], ?_, by simp [hca, haa], fun _ => rfl, ?_, rfl, ?_⟩
            · rw [show (expandOnePass p acc s).1 = _ from congrArg Prod.fst h1]
              simp [bloomStagesFinal, List.append_assoc]
            · rw [show (expandOnePass p acc s).2 = sB from congrArg Prod.snd h1, hGr]
              simp
            · refine ⟨{ stagePass (s.passData.length + 2 + n) with
                  colourTarget := p.colourTarget }, ?_, rfl⟩
              rw [show (expandOnePass p acc s).1 = _ from congrArg Prod.fst h1]
              exact List.getLast?_concat _
        | true =>
            have h1 : expandOnePass p acc s
                = ((((acc ++ [{ p with colourTarget := some (s.nextId + 1) }])
                      ++ bloomStagesFront s.nextId s.passData.length n)
                    ++ [{ stagePass (s.passData.length + 2 + n) with
                          colourTarget := some (sB.nextId + 1) },
                        { stagePass sB.passData.length with
                          colourTarget := p.colourTarget }]),
                   addPassState sB (fun t => .antiAliasingNode (.texture t))) := by
              simp only [expandOnePass, hb, hca, haa, Bool.false_eq_true, ite_false,
                eq_self_iff_true, ite_true]
              rw [hB]
              simp only
              rw [hre, addPass_eq]
              simp only
              rw [setLastColourTarget_append₂]
            refine ⟨some (sB.nextId + 1),
              [{ stagePass sB.passData.length with colourTarget := p.colourTarget }],
              [(sB.nextId + 2, .antiAliasingNode (.texture (sB.nextId + 1)))],
              ?_, by simp [hca, haa], by simp, ?_, rfl, ?_⟩
            · rw [show (expandOnePass p acc s).1 = _ from congrArg Prod.fst h1]
              simp [bloomStagesFinal, List.append_assoc]
            · rw [show (expandOnePass p acc s).2 = _ from congrArg Prod.snd h1]
              simp [addPassState, hGr, List.append_assoc]
            · refine ⟨{ stagePass sB.passData.length with
                  colourTarget := p.colourTarget }, ?_, rfl⟩
              rw [show (expandOnePass p acc s).1 = _ from congrArg Prod.fst h1]
              rw [append_pair_assoc]
              exact List.getLast?_concat _
    | some ca =>
        cases haa : p.postProcessingDescription.antiAliasing with
        | false =>
            have h1 : expandOnePass p acc s
                = ((((acc ++ [{ p with colourTarget := some (s.nextId + 1) }])
                      ++ bloomStagesFront s.nextId s.passData.length n)
                    ++ [{ stagePass (s.passData.length + 2 + n) with
                          colourTarget := some (sB.nextId + 1) },
                        { stagePass sB.passData.length with
                          colourTarget := p.colourTarget }]),
                   addPassState sB (fun t => .colourAdjustNode (.texture t) ca)) := by
              simp only [expandOnePass, hb, hca, haa, Bool.false_eq_true, ite_false,
                eq_self_iff_true, ite_true]
              rw [hB]
              simp only
              rw [hre, addPass_eq]
              simp only
              rw [setLastColourTarget_append₂]
            refine ⟨some (sB.nextId + 1),
              [{ stagePass sB.passData.length with colourTarget := p.colourTarget }],
              [(sB.nextId + 2, .colourAdjustNode (.texture (sB.nextId + 1)) ca)],
              ?_, by simp [hca, haa], by simp, ?_, rfl, ?_⟩
            · rw [show (expandOnePass p acc s).1 = _ from congrArg Prod.fst h1]
              simp [bloomStagesFinal, List.append_assoc]
            · rw [show (expandOnePass p acc s).2 = _ from congrArg Prod.snd h1]
              simp [addPassState, hGr, List.append_assoc]
            · refine ⟨{ stagePass sB.passData.length with
                  colourTarget := p.colourTarget }, ?_, rfl⟩
              rw [show (expandOnePass p acc s).1 = _ from congrArg Prod.fst h1]
              rw [append_pair_assoc]
              exact List.getLast?_concat _
        | true =>
            have h1 : expandOnePass p acc s
                = (((((acc ++ [{ p with colourTarget := some (s.nextId + 1) }])
                      ++ bloomStagesFront s.nextId s.passData.length n)
                    ++ [{ stagePass (s.passData.length + 2 + n) with
                          colourTarget := some (sB.nextId + 1) }])
                    ++ [{ stagePass sB.passData.length with
                          colourTarget := some ((addPassState sB
                            (fun t => .colourAdjustNode (.texture t) ca)).nextId + 1) },
                        { stagePass (addPassState sB
                            (fun t => .colourAdjustNode (.texture t) ca)).passData.length with
                          colourTarget := p.colourTarget }]),
                   addPassState (addPassState sB (fun t => .colourAdjustNode (.texture t) ca))
                     (fun t => .antiAliasingNode (.texture t))) := by
              simp only [expandOnePass, hb, hca, haa, Bool.false_eq_true, ite_false,
                eq_self_iff_true, ite_true]
              rw [hB]
              simp only
              rw [hre, addPass_eq]
              simp only
              rw [append_pair_assoc, addPass_eq]
              simp only
              rw [setLastColourTarget_append₂]
            refine ⟨some (sB.nextId + 1),
              [{ stagePass sB.passData.length with
                 colourTarget := some ((addPassState sB
                   (fun t => .colourAdjustNode (.texture t) ca)).nextId + 1) },
               { stagePass (addPassState sB
                   (fun t => .colourAdjustNode (.texture t) ca)).passData.length with
                 colourTarget := p.colourTarget }],
              [(sB.nextId + 2, .colourAdjustNode (.texture (sB.nextId + 1)) ca),
               ((addPassState sB (fun t => .colourAdjustNode (.texture t) ca)).nextId + 2,
                .antiAliasingNode (.texture ((addPassState sB
                  (fun t => .colourAdjustNode (.texture t) ca)).nextId + 1)))],
              ?_, by simp [hca, haa], by simp, ?_, rfl, ?_⟩
            · rw [show (expandOnePass p acc s).1 = _ from congrArg Prod.fst h1]
              simp [bloomStagesFinal, List.append_assoc]
            · rw [show (expandOnePass p acc s).2 = _ from congrArg Prod.snd h1]
              simp only [addPassState]
              simp [hGr, List.append_assoc]
            · refine ⟨{ stagePass (addPassState sB
                  (fun t => .colourAdjustNode (.texture t) ca)).passData.length with
                  colourTarget := p.colourTarget }, ?_, rfl⟩
              rw [show (expandOnePass p acc s).1 = _ from congrArg Prod.fst h1]
              rw [append_pair_assoc]
              exact List.getLast?_concat _
  refine ⟨hex, fun ct => bloomStagesFinal_length _ _ _ _, by simp [bloomGraphsSpec],
    by simp [bloomGraphsSpec], ?_, ?_, ?_⟩
  · intro k hk
    rw [show 2 + k = (k + 1) + 1 by omega]
    simp only [bloomGraphsSpec, List.getElem?_cons_succ]
    rw [List.getElem?_append_left (by rw [blurGraphsSpec_length]; exact hk)]
    rw [blurGraphsSpec_get]
    simp only [hk, if_true, ite_true, Option.some_inj, Prod.mk.injEq]
    constructor
    · omega
    · congr 3
      omega
  · intro k hk
    rw [blurChainInit_get _ _ _ _ _ rfl]
    simp only [hk, if_true, ite_true, Option.some_inj]
    congr 2
    omega
  · show ((s.nextId + 2, RGNode.colourInput (.texture (s.nextId + 1)))
        :: (s.nextId + 6, RGNode.colourInput (.conditional
            (.arithmetic (.texture (s.nextId + 5)) (.valueColour bloomWeights) .DOT)
            (.valueFloat thr) (.texture (s.nextId + 5)) (.valueColour bloomBlack) .GREATER))
        :: (blurGraphsSpec (s.nextId + 8) n
            ++ [(s.nextId + 10 + 4 * n,
                 RGNode.colourInput (.arithmetic (.texture (s.nextId + 1))
                   (.texture (s.nextId + 9 + 4 * n)) .ADD))])).getLast? = _
    rw [show ((s.nextId + 2, RGNode.colourInput (.texture (s.nextId + 1)))
        :: (s.nextId + 6, RGNode.colourInput (.conditional
            (.arithmetic (.texture (s.nextId + 5)) (.valueColour bloomWeights) .DOT)
            (.valueFloat thr) (.texture (s.nextId + 5)) (.valueColour bloomBlack) .GREATER))
        :: (blurGraphsSpec (s.nextId + 8) n
            ++ [(s.nextId + 10 + 4 * n,
                 RGNode.colourInput (.arithmetic (.texture (s.nextId + 1))
                   (.texture (s.nextId + 9 + 4 * n)) .ADD))]))
      = ((s.nextId + 2, RGNode.colourInput (.texture (s.nextId + 1)))
          :: (s.nextId + 6, RGNode.colourInput (.conditional
              (.arithmetic (.texture (s.nextId + 5)) (.valueColour bloomWeights) .DOT)
              (.valueFloat thr) (.texture (s.nextId + 5)) (.valueColour bloomBlack) .GREATER))
          :: blurGraphsSpec (s.nextId + 8) n)
        ++ [(s.nextId + 10 + 4 * n,
             RGNode.colourInput (.arithmetic (.texture (s.nextId + 1))
               (.texture (s.nextId + 9 + 4 * n)) .ADD))] by simp]
    exact List.getLast?_concat _

/-- A pass with bloom (threshold 1, one iteration) rendering into caller
target 7. -/
def fxPassBloom : RenderPass :=
  { scene := .caller 0, camera := .value fxCamera, colourTarget := some 7
    postProcessingDescription := { bloom := some ⟨1, 1⟩ } }

/-- C4 as stated is false on the composite stage's inputs: in the build of
`[fxPassBloom]`, the composite stage's graph (store entry 3) samples
target 1001 — the colour target of the expanded original pass, i.e. the
pass-through stage's *input* — while the pass-through stage's own colour
target (its output, final pass list entry 1) is 1005 ≠ 1001.  So the
composite does not consume the pass-through stage's output; it consumes
the pass-through stage's input (and the last blur stage's output 1013). -/
theorem bloom_composite_input_cex :
    ((buildRun 4 3 1000 [fxSceneSky] [fxPassBloom]).2.2.graphs)[3]?
      = some (1014, .colourInput (.arithmetic (.texture 1001) (.texture 1013) .ADD))
    ∧ ((buildRun 4 3 1000 [fxSceneSky] [fxPassBloom]).2.1)[1]?.map RenderPass.colourTarget
      = some (some 1005)
    ∧ ((buildRun 4 3 1000 [fxSceneSky] [fxPassBloom]).2.1)[0]?.map RenderPass.colourTarget
      = some (some 1001)
    ∧ (1001 : Nat) ≠ 1005 := by
  exact ⟨rfl, rfl, rfl, by decide⟩

/-!
## `build` and the caller's scenes
-/

theorem addPass_state_scenes (s : BuilderState) (xs : List RenderPass) (g : Nat → RGNode) :
    ((addPass s xs g).2.2).scenes = s.scenes := by
  simp [addPass, freshId, createRenderTarget]

theorem bloomBlurLoop_scenes (xs : List RenderPass) (s : BuilderState) (n : Nat) :
    ((bloomBlurLoop xs s n).2).scenes = s.scenes := by
  induction n generalizing xs s with
  | zero => rfl
  | succ n ih =>
      simp only [bloomBlurLoop]
      rw [ih, addPass_state_scenes]

theorem expandBloom_scenes (b : Bloom) (xs : List RenderPass) (s : BuilderState) :
    ((expandBloom b xs s).2).scenes = s.scenes := by
  simp only [expandBloom]
  rw [addPass_state_scenes, bloomBlurLoop_scenes, addPass_state_scenes, addPass_state_scenes]

theorem expandOnePass_scenes (p : RenderPass) (acc : List RenderPass) (s : BuilderState) :
    ((expandOnePass p acc s).2).scenes = s.scenes := by
  cases hb : p.postProcessingDescription.bloom <;>
    cases hca : p.postProcessingDescription.colourAdjust <;>
    cases haa : p.postProcessingDescription.antiAliasing <;>
    simp [expandOnePass, hb, hca, haa, addPass_state_scenes, expandBloom_scenes]

theorem addPostProcessingPasses_scenes (ps acc : List RenderPass) (s : BuilderState) :
    ((addPostProcessingPasses acc s ps).2).scenes = s.scenes := by
  induction ps generalizing acc s with
  | nil => rfl
  | cons p ps ih =>
      simp only [addPostProcessingPasses]
      rw [ih, expandOnePass_scenes]

theorem injectShadows_scenes (p : RenderPass) (pre : List RenderPass) (maps : ShadowMaps)
    (s : BuilderState) (ls : List DirectionalLight) :
    ((injectShadows p pre maps s ls).2.2).scenes = s.scenes := by
  rw [injectShadows_eq]

theorem injectAO_scenes (p : RenderPass) (pre : List RenderPass) (s : BuilderState) :
    ((injectAO p pre s).2.2).scenes = s.scenes := by
  cases hao : p.postProcessingDescription.ambientOcclusion with
  | none => simp [injectAO, hao]
  | some ssao =>
      simp [injectAO, hao, createRenderTarget, freshId, createHybridRenderTarget,
        addPass_state_scenes]

theorem injectPass_scenes (p : RenderPass) (pre : List RenderPass) (maps : ShadowMaps)
    (s : BuilderState) :
    ((injectPass p pre maps s).2.2.2).scenes = s.scenes := by
  show ((injectAO p _ _).2.2).scenes = _
  rw [injectAO_scenes, injectShadows_scenes]

theorem injectAll_scenes (ps pre : List RenderPass) (maps : ShadowMaps) (s : BuilderState) :
    ((injectAll pre maps s ps).2.2.2).scenes = s.scenes := by
  induction ps generalizing pre maps s with
  | nil => rfl
  | cons p ps ih =>
      simp only [injectAll]
      rw [ih, injectPass_scenes]

/-- The pass lists `build` works with all consist of sky-box-free passes
when the input passes are sky-box-free. -/
def NoSky (xs : List RenderPass) : Prop := ∀ q ∈ xs, q.skyBox = none

theorem noSky_setLast (t : Option Nat) (xs : List RenderPass) (h : NoSky xs) :
    NoSky (setLastColourTarget t xs) := by
  induction xs with
  | nil => exact h
  | cons q xs ih =>
      cases xs with
      | nil =>
          intro q' hq'
          simp only [setLastColourTarget, List.mem_singleton] at hq'
          subst hq'
          exact h q (List.mem_cons_self _ _)
      | cons r xs =>
          intro q' hq'
          rcases List.mem_cons.mp hq' with h2 | h2
          · subst h2; exact h q' (List.mem_cons_self _ _)
          · exact ih (fun q'' hq'' => h q'' (List.mem_cons_of_mem _ hq'')) q' h2

theorem noSky_append {A B : List RenderPass} (hA : NoSky A) (hB : NoSky B) :
    NoSky (A ++ B) := by
  intro q hq
  rcases List.mem_append.mp hq with h | h
  · exact hA q h
  · exact hB q h

theorem noSky_addPass (s : BuilderState) (xs : List RenderPass) (g : Nat → RGNode)
    (h : NoSky xs) : NoSky (addPass s xs g).2.1 := by
  simp only [addPass, freshId, createRenderTarget]
  exact noSky_append (noSky_setLast _ _ h) (by intro q hq; rw [List.mem_singleton] at hq; subst hq; rfl)

theorem noSky_bloomBlurLoop (xs : List RenderPass) (s : BuilderState) (n : Nat)
    (h : NoSky xs) : NoSky (bloomBlurLoop xs s n).1 := by
  induction n generalizing xs s with
  | zero => exact h
  | succ n ih =>
      simp only [bloomBlurLoop]
      rcases hx : addPass s xs (fun t => RGNode.colourInput (RGNode.blur (RGNode.texture t)))
        with ⟨t1, xs1, s1⟩
      have h1 : NoSky xs1 := by
        have h2 := noSky_addPass s xs
          (fun t => RGNode.colourInput (RGNode.blur (RGNode.texture t))) h
        rw [hx] at h2
        exact h2
      exact ih xs1 s1 h1

theorem noSky_expandBloom (b : Bloom) (xs : List RenderPass) (s : BuilderState)
    (h : NoSky xs) : NoSky (expandBloom b xs s).1 := by
  simp only [expandBloom]
  rcases hx1 : addPass s xs (fun t => RGNode.colourInput (RGNode.texture t))
    with ⟨t1, xs1, s1⟩
  have h1 : NoSky xs1 := by
    have h2 := noSky_addPass s xs (fun t => RGNode.colourInput (RGNode.texture t)) h
    rw [hx1] at h2
    exact h2
  rcases hx2 : addPass s1 xs1 (fun t => RGNode.colourInput (RGNode.conditional
      (RGNode.arithmetic (RGNode.texture t) (RGNode.valueColour bloomWeights)
        ArithmeticOperator.DOT)
      (RGNode.valueFloat b.threshold) (RGNode.texture t) (RGNode.valueColour bloomBlack)
      ConditionalOperator.GREATER)) with ⟨t2, xs2, s2⟩
  have h2 : NoSky xs2 := by
    have h3 := noSky_addPass s1 xs1 (fun t => RGNode.colourInput (RGNode.conditional
      (RGNode.arithmetic (RGNode.texture t) (RGNode.valueColour bloomWeights)
        ArithmeticOperator.DOT)
      (RGNode.valueFloat b.threshold) (RGNode.texture t) (RGNode.valueColour bloomBlack)
      ConditionalOperator.GREATER)) h1
    rw [hx2] at h3
    exact h3
  rcases hx3 : bloomBlurLoop xs2 s2 b.iterations with ⟨xs3, s3⟩
  have h3 : NoSky xs3 := by
    have h4 := noSky_bloomBlurLoop xs2 s2 b.iterations h2
    rw [hx3] at h4
    exact h4
  exact noSky_addPass s3 xs3 (fun t => RGNode.colourInput
    (RGNode.arithmetic (RGNode.texture t1) (RGNode.texture t) ArithmeticOperator.ADD)) h3

theorem noSky_expandOnePass (p : RenderPass) (acc : List RenderPass) (s : BuilderState)
    (hacc : NoSky acc) (hp : p.skyBox = none) : NoSky (expandOnePass p acc s).1 := by
  have h0 : NoSky (acc ++ [p]) :=
    noSky_append hacc (by intro q hq; rw [List.mem_singleton] at hq; subst hq; exact hp)
  cases hb : p.postProcessingDescription.bloom with
  | none =>
      cases hca : p.postProcessingDescription.colourAdjust with
      | none =>
          cases haa : p.postProcessingDescription.antiAliasing with
          | false =>
              simp only [expandOnePass, hb, hca, haa, Bool.false_eq_true, ite_false]
              exact noSky_setLast _ _ h0
          | true =>
              simp only [expandOnePass, hb, hca, haa, eq_self_iff_true, ite_true]
              rcases hx1 : addPass s (acc ++ [p])
                  (fun t => RGNode.antiAliasingNode (RGNode.texture t)) with ⟨t1, xs1, s1⟩
              have h1 : NoSky xs1 := by
                have h2 := noSky_addPass s (acc ++ [p])
                  (fun t => RGNode.antiAliasingNode (RGNode.texture t)) h0
                rw [hx1] at h2
                exact h2
              exact noSky_setLast _ _ h1
      | some ca =>
          cases haa : p.postProcessingDescription.antiAliasing with
          | false =>
              simp only [expandOnePass, hb, hca, haa, Bool.false_eq_true, ite_false]
              rcases hx1 : addPass s (acc ++ [p])
                  (fun t => RGNode.colourAdjustNode (RGNode.texture t) ca) with ⟨t1, xs1, s1⟩
              have h1 : NoSky xs1 := by
                have h2 := noSky_addPass s (acc ++ [p])
                  (fun t => RGNode.colourAdjustNode (RGNode.texture t) ca) h0
                rw [hx1] at h2
                exact h2
              exact noSky_setLast _ _ h1
          | true =>
              simp only [expandOnePass, hb, hca, haa, eq_self_iff_true, ite_true]
              rcases hx1 : addPass s (acc ++ [p])
                  (fun t => RGNode.colourAdjustNode (RGNode.texture t) ca) with ⟨t1, xs1, s1⟩
              have h1 : NoSky xs1 := by
                have h2 := noSky_addPass s (acc ++ [p])
                  (fun t => RGNode.colourAdjustNode (RGNode.texture t) ca) h0
                rw [hx1] at h2
                exact h2
              rcases hx2 : addPass s1 xs1
                  (fun t => RGNode.antiAliasingNode (RGNode.texture t)) with ⟨t2, xs2, s2⟩
              have h2 : NoSky xs2 := by
                have h3 := noSky_addPass s1 xs1
                  (fun t => RGNode.antiAliasingNode (RGNode.texture t)) h1
                rw [hx2] at h3
                exact h3
              exact noSky_setLast _ _ h2
  | some b =>
      have hB : NoSky (expandBloom b (acc ++ [p]) s).1 := noSky_expandBloom b (acc ++ [p]) s h0
      cases hca : p.postProcessingDescription.colourAdjust with
      | none =>
          cases haa : p.postProcessingDescription.antiAliasing with
          | false =>
              simp only [expandOnePass, hb, hca, haa, Bool.false_eq_true, ite_false]
              rcases hxb : expandBloom b (acc ++ [p]) s with ⟨xsb, sb⟩
              rw [hxb] at hB
              exact noSky_setLast _ _ hB
          | true =>
              simp only [expandOnePass, hb, hca, haa, eq_self_iff_true, ite_true]
              rcases hxb : expandBloom b (acc ++ [p]) s with ⟨xsb, sb⟩
              rw [hxb] at hB
              rcases hx1 : addPass sb xsb
                  (fun t => RGNode.antiAliasingNode (RGNode.texture t)) with ⟨t1, xs1, s1⟩
              have h1 : NoSky xs1 := by
                have h2 := noSky_addPass sb xsb
                  (fun t => RGNode.antiAliasingNode (RGNode.texture t)) hB
                rw [hx1] at h2
                exact h2
              exact noSky_setLast _ _ h1
      | some ca =>
          cases haa : p.postProcessingDescription.antiAliasing with
          | false =>
              simp only [expandOnePass, hb, hca, haa, Bool.false_eq_true, ite_false]
              rcases hxb : expandBloom b (acc ++ [p]) s with ⟨xsb, sb⟩
              rw [hxb] at hB
              rcases hx1 : addPass sb xsb
                  (fun t => RGNode.colourAdjustNode (RGNode.texture t) ca) with ⟨t1, xs1, s1⟩
              have h1 : NoSky xs1 := by
                have h2 := noSky_addPass sb xsb
                  (fun t => RGNode.colourAdjustNode (RGNode.texture t) ca) hB
                rw [hx1] at h2
                exact h2
              exact noSky_setLast _ _ h1
          | true =>
              simp only [expandOnePass, hb, hca, haa, eq_self_iff_true, ite_true]
              rcases hxb : expandBloom b (acc ++ [p]) s with ⟨xsb, sb⟩
              rw [hxb] at hB
              rcases hx1 : addPass sb xsb
                  (fun t => RGNode.colourAdjustNode (RGNode.texture t) ca) with ⟨t1, xs1, s1⟩
              have h1 : NoSky xs1 := by
                have h2 := noSky_addPass sb xsb
                  (fun t => RGNode.colourAdjustNode (RGNode.texture t) ca) hB
                rw [hx1] at h2
                exact h2
              rcases hx2 : addPass s1 xs1
                  (fun t => RGNode.antiAliasingNode (RGNode.texture t)) with ⟨t2, xs2, s2⟩
              have h2 : NoSky xs2 := by
                have h3 := noSky_addPass s1 xs1
                  (fun t => RGNode.antiAliasingNode (RGNode.texture t)) h1
                rw [hx2] at h3
                exact h3
              exact noSky_setLast _ _ h2

theorem noSky_addPostProcessingPasses (ps acc : List RenderPass) (s : BuilderState)
    (hacc : NoSky acc) (hps : NoSky ps) : NoSky (addPostProcessingPasses acc s ps).1 := by
  induction ps generalizing acc s with
  | nil => exact hacc
  | cons p ps ih =>
      simp only [addPostProcessingPasses]
      exact ih _ _ (noSky_expandOnePass p acc s hacc (hps p (List.mem_cons_self _ _)))
        (fun q hq => hps q (List.mem_cons_of_mem _ hq))

theorem noSky_shadowSpec (p : RenderPass) (m : Nat) (ls : List DirectionalLight)
    (hp : p.skyBox = none) : NoSky (shadowSpec p m ls) := by
  induction ls generalizing m with
  | nil => intro q hq; cases hq
  | cons l ls ih =>
      intro q hq
      by_cases h : l.castsShadows
      · rw [shadowSpec, if_pos h] at hq
        rcases List.mem_cons.mp hq with h2 | h2
        · subst h2; exact hp
        · exact ih _ q h2
      · rw [shadowSpec, if_neg h] at hq
        exact ih _ q hq

theorem noSky_injectAO (p : RenderPass) (pre : List RenderPass) (s : BuilderState)
    (hpre : NoSky pre) (hp : p.skyBox = none) :
    (injectAO p pre s).1.skyBox = none ∧ NoSky (injectAO p pre s).2.1 := by
  cases hao : p.postProcessingDescription.ambientOcclusion with
  | none => exact ⟨by simp [injectAO, hao, hp], by simpa [injectAO, hao] using hpre⟩
  | some ssao =>
      rw [injectAO_eq p pre s ssao hao]
      refine ⟨hp, noSky_append hpre ?_⟩
      intro q hq
      rcases List.mem_cons.mp hq with h2 | h2
      · subst h2; exact hp
      · rw [List.mem_singleton] at h2; subst h2; rfl

theorem noSky_injectPass (p : RenderPass) (pre : List RenderPass) (maps : ShadowMaps)
    (s : BuilderState) (hpre : NoSky pre) (hp : p.skyBox = none) :
    (injectPass p pre maps s).1.skyBox = none ∧ NoSky (injectPass p pre maps s).2.1 := by
  have h1 : NoSky (injectShadows p pre maps s
      (lookupScene s p.scene).rig.directionalLights).1 := by
    rw [injectShadows_eq]
    exact noSky_append hpre (noSky_shadowSpec p _ _ hp)
  exact noSky_injectAO p _ _ h1 hp

theorem noSky_injectAll (ps pre : List RenderPass) (maps : ShadowMaps) (s : BuilderState)
    (hpre : NoSky pre) (hps : NoSky ps) :
    NoSky (injectAll pre maps s ps).1 ∧ NoSky (injectAll pre maps s ps).2.1 := by
  induction ps generalizing pre maps s with
  | nil => exact ⟨fun q hq => absurd hq (by simp [injectAll]), by simpa [injectAll] using hpre⟩
  | cons p ps ih =>
      simp only [injectAll]
      obtain ⟨h1, h2⟩ := noSky_injectPass p pre maps s hpre (hps p (List.mem_cons_self _ _))
      obtain ⟨h3, h4⟩ := ih _ _ _ h2 (fun q hq => hps q (List.mem_cons_of_mem _ hq))
      refine ⟨?_, h4⟩
      intro q hq
      rcases List.mem_cons.mp hq with h5 | h5
      · subst h5; exact h1
      · exact h3 q h5


/-!
## Scene preservation on the encoding side
-/

theorem encodeEntities_scenes (sc : Scene) (lt : LightType) (hn hp : Bool) (pc : Option Nat)
    (maps : ShadowMaps) (cmd : RenderCommand) (s : BuilderState) (ents : List SEntity) :
    ((encodeEntities sc lt hn hp pc maps cmd s ents).2.2).scenes = s.scenes := by
  rw [encodeEntities_state]

theorem ambientBlock_scenes (p : RenderPass) (maps : ShadowMaps) (cmd : RenderCommand)
    (s : BuilderState) : ((ambientBlock p maps cmd s).2.2).scenes = s.scenes := by
  by_cases h : p.postProcessingDescription.ambientOcclusion.isSome
  · simp [ambientBlock, h]
  · simp [ambientBlock, h, encodeLightPassCommands, encodeEntities_state]

theorem pointBlock_scenes (p : RenderPass) (maps : ShadowMaps) (cmd : RenderCommand)
    (s : BuilderState) : ((pointBlock p maps cmd s).2.2).scenes = s.scenes := by
  by_cases h : (lookupScene s p.scene).rig.pointLights.isEmpty
  · simp [pointBlock, h]
  · simp [pointBlock, h, encodeLightPassCommands, encodeEntities_state]

theorem dirBlock_scenes (p : RenderPass) (maps : ShadowMaps) (cmd : RenderCommand)
    (s : BuilderState) : ((dirBlock p maps cmd s).2.2).scenes = s.scenes := by
  by_cases h : (lookupScene s p.scene).rig.directionalLights.isEmpty
  · simp [dirBlock, h]
  · simp [dirBlock, h, encodeLightPassCommands, encodeEntities_state]

theorem lightsBlock_scenes (p : RenderPass) (maps : ShadowMaps) (cmd : RenderCommand)
    (s : BuilderState) (hsb : p.skyBox = none) :
    ((lightsBlock p maps cmd s).2.2).scenes = s.scenes := by
  cases hd : p.depthOnly with
  | true => simp [lightsBlock, hd]
  | false =>
      simp only [lightsBlock, hd, Bool.false_eq_true, ite_false]
      rcases hx1 : pointBlock p maps cmd s with ⟨q1, cmd1, s1⟩
      have h1 : s1.scenes = s.scenes := by
        have h := pointBlock_scenes p maps cmd s
        rw [hx1] at h
        exact h
      rcases hx2 : dirBlock p maps cmd1 s1 with ⟨q2, cmd2, s2⟩
      have h2 : s2.scenes = s1.scenes := by
        have h := dirBlock_scenes p maps cmd1 s1
        rw [hx2] at h
        exact h
      rw [skyBoxBlock_none p cmd2 s2 hsb]
      rw [h2, h1]

theorem encodeOnePass_scenes (idx : Nat) (p : RenderPass) (maps : ShadowMaps)
    (cmd : RenderCommand) (s : BuilderState) (hsb : p.skyBox = none) :
    ((encodeOnePass idx p maps cmd s).2.2).scenes = s.scenes := by
  simp only [encodeOnePass]
  rcases hx1 : ambientBlock p maps
      { cmd with renderPass := some idx, ctype := RenderCommandType.PASS_START } s
    with ⟨qA, cmd1, s1⟩
  have h1 : s1.scenes = s.scenes := by
    have h := ambientBlock_scenes p maps
      { cmd with renderPass := some idx, ctype := RenderCommandType.PASS_START } s
    rw [hx1] at h
    exact h
  rcases hx2 : lightsBlock p maps cmd1 s1 with ⟨qL, cmd2, s2⟩
  have h2 : s2.scenes = s1.scenes := by
    have h := lightsBlock_scenes p maps cmd1 s1 hsb
    rw [hx2] at h
    exact h
  rw [h2, h1]

theorem encodePasses_scenes (ps : List RenderPass) (maps : ShadowMaps) (cmd : RenderCommand)
    (s : BuilderState) (idx : Nat) (hsb : NoSky ps) :
    ((encodePasses maps cmd s idx ps).2.2).scenes = s.scenes := by
  induction ps generalizing cmd s idx with
  | nil => rfl
  | cons p ps ih =>
      simp only [encodePasses]
      rcases hx1 : encodeOnePass idx p maps cmd s with ⟨q, cmd1, s1⟩
      have h1 : s1.scenes = s.scenes := by
        have h := encodeOnePass_scenes idx p maps cmd s (hsb p (List.mem_cons_self _ _))
        rw [hx1] at h
        exact h
      rcases hx2 : encodePasses maps cmd1 s1 (idx + 1) ps with ⟨q2, cmd2, s2⟩
      have h2 : s2.scenes = s1.scenes := by
        have h := ih cmd1 s1 (idx + 1) (fun q hq => hsb q (List.mem_cons_of_mem _ hq))
        rw [hx2] at h
        exact h
      rw [h2, h1]

/-- C8 (amended): apart from the render-target-provider and
material-factory side effects, `build` only reads the caller scenes and
leaves them unchanged, provided no input pass declares a sky box. (Without
that proviso the claim is false: see the counterexample — the sky-box
branch adds a render graph and an entity to the referenced scene, and
`build` also repopulates the caller's pass deque.) -/
theorem build_preserves_scenes_without_skybox (w h n0 : Nat) (scenes : List Scene)
    (passes : List RenderPass) (hsb : ∀ p ∈ passes, p.skyBox = none) :
    ((buildRun w h n0 scenes passes).2.2).scenes = scenes := by
  show ((build passes (initState w h n0 scenes)).2.2).scenes = scenes
  simp only [build]
  rcases hI : injectAll [] [] (initState w h n0 scenes) passes with ⟨ip, pre, maps, s1⟩
  have hIs : s1.scenes = scenes := by
    have h := injectAll_scenes passes [] [] (initState w h n0 scenes)
    rw [hI] at h
    exact h
  have hInoSky : NoSky ip ∧ NoSky pre := by
    have h := noSky_injectAll passes [] [] (initState w h n0 scenes)
      (fun q hq => absurd hq (List.not_mem_nil q)) hsb
    rw [hI] at h
    exact h
  rcases hP : addPostProcessingPasses [] s1 (pre ++ ip) with ⟨fp, s2⟩
  have hPs : s2.scenes = s1.scenes := by
    have h := addPostProcessingPasses_scenes (pre ++ ip) [] s1
    rw [hP] at h
    exact h
  have hPnoSky : NoSky fp := by
    have h := noSky_addPostProcessingPasses (pre ++ ip) [] s1
      (fun q hq => absurd hq (List.not_mem_nil q))
      (noSky_append hInoSky.2 hInoSky.1)
    rw [hP] at h
    exact h
  rcases hE : encodePasses maps {} s2 0 fp with ⟨queue, cmd, s3⟩
  have hEs : s3.scenes = s2.scenes := by
    have h := encodePasses_scenes fp maps {} s2 0 hPnoSky
    rw [hE] at h
    exact h
  rw [hEs, hPs, hIs]


/-!
## Concrete instantiations of the hypothesised theorems
-/

/-- A pass requesting ambient occlusion (SSAO graph parameter 77). -/
def fxPassAO : RenderPass :=
  { scene := .caller 0, camera := .value fxCamera, colourTarget := some 7
    postProcessingDescription := { ambientOcclusion := some 77 } }

/-- The ambient block of `fxPassShadow` at a fresh builder. -/
def fxAmb : List RenderCommand × RenderCommand × BuilderState :=
  ambientBlock fxPassShadow [] (passStart 0 {}) (initState 4 3 1000 [fxSceneShadow])

/-- The point block following `fxAmb`. -/
def fxPoint : List RenderCommand × RenderCommand × BuilderState :=
  pointBlock fxPassShadow [] fxAmb.2.1 fxAmb.2.2

/-- The directional block following `fxPoint`. -/
def fxDir : List RenderCommand × RenderCommand × BuilderState :=
  dirBlock fxPassShadow [] fxPoint.2.1 fxPoint.2.2

/-- The sky-box block following `fxDir`. -/
def fxSky : List RenderCommand × RenderCommand × BuilderState :=
  skyBoxBlock fxPassShadow fxDir.2.1 fxDir.2.2

theorem bloom_expansion_structure_witness :
    fxPassBloom.postProcessingDescription.bloom = some ⟨1, 1⟩
    ∧ ∀ ct, (bloomStagesFinal (initState 4 3 1000 []).nextId
        (initState 4 3 1000 []).passData.length 1 ct).length = 1 + 3 :=
  ⟨rfl, (bloom_expansion_structure fxPassBloom [] (initState 4 3 1000 []) 1 1 rfl).2.1⟩

theorem ao_injection_spec_witness :
    fxPassAO.postProcessingDescription.ambientOcclusion = some 77
    ∧ (injectAO fxPassAO [] (initState 4 3 1000 [])).1.camera = fxPassAO.camera :=
  ⟨rfl, (ao_injection_spec fxPassAO [] (initState 4 3 1000 []) 77 rfl).2.2.2.2.2.2.1⟩

theorem point_light_fanout_and_order_witness :
    fxPassShadow.depthOnly = false
    ∧ fxPassShadow.postProcessingDescription.ambientOcclusion = none
    ∧ fxSky.1.length = (if fxPassShadow.skyBox.isSome then 1 else 0) :=
  ⟨rfl, rfl,
    (point_light_fanout_and_order 0 fxPassShadow [] {} (initState 4 3 1000 [fxSceneShadow])
      fxAmb.1 fxPoint.1 fxDir.1 fxSky.1 fxAmb.2.1 fxPoint.2.1 fxDir.2.1 fxSky.2.1
      fxAmb.2.2 fxPoint.2.2 fxDir.2.2 fxSky.2.2 rfl rfl rfl rfl rfl rfl).2.2.2.2.2.2⟩

theorem build_preserves_scenes_without_skybox_witness :
    (∀ p ∈ [fxPassShadow], p.skyBox = none)
    ∧ ((buildRun 4 3 1000 [fxSceneShadow] [fxPassShadow]).2.2).scenes = [fxSceneShadow] := by
  have hsb : ∀ p ∈ [fxPassShadow], p.skyBox = none := by
    intro p hp
    rw [List.mem_singleton] at hp
    subst hp
    rfl
  exact ⟨hsb, build_preserves_scenes_without_skybox 4 3 1000 [fxSceneShadow] [fxPassShadow] hsb⟩

theorem missing_shadow_entry_yields_none_witness :
    (⟨5, 11, true⟩ : SEntity).receiveShadow = true
    ∧ (encodeDirLights ⟨5, 11, true⟩ [] {} [fxShadowLight]).1.length = [fxShadowLight].length :=
  ⟨rfl, (missing_shadow_entry_yields_none ⟨5, 11, true⟩ [] {} [fxShadowLight] rfl).2.1⟩

theorem no_material_calls_for_empty_light_category_witness :
    ((⟨1000, 5, 11, none, .AMBIENT, false, false⟩ : MaterialCall)
        ∈ ((encodeOnePass 0 fxPassShadow [] {}
              (initState 4 3 1000 [fxSceneShadow])).2.2).materialCalls)
    ∧ ((⟨1000, 5, 11, none, .AMBIENT, false, false⟩ : MaterialCall)
          ∈ (initState 4 3 1000 [fxSceneShadow]).materialCalls
       ∨ (⟨1000, 5, 11, none, .AMBIENT, false, false⟩ : MaterialCall).lightType = .AMBIENT
       ∨ ((⟨1000, 5, 11, none, .AMBIENT, false, false⟩ : MaterialCall).lightType = .POINT
            ∧ (lookupScene (initState 4 3 1000 [fxSceneShadow])
                fxPassShadow.scene).rig.pointLights ≠ [])
       ∨ ((⟨1000, 5, 11, none, .AMBIENT, false, false⟩ : MaterialCall).lightType = .DIRECTIONAL
            ∧ (lookupScene (initState 4 3 1000 [fxSceneShadow])
                fxPassShadow.scene).rig.directionalLights ≠ [])) := by
  have hmem : (⟨1000, 5, 11, none, .AMBIENT, false, false⟩ : MaterialCall)
      ∈ ((encodeOnePass 0 fxPassShadow [] {}
            (initState 4 3 1000 [fxSceneShadow])).2.2).materialCalls := by
    decide
  exact ⟨hmem, no_material_calls_for_empty_light_category 0 fxPassShadow [] {}
    (initState 4 3 1000 [fxSceneShadow]) _ hmem⟩

end Iris
